import Mathlib

/-!
sqlbuilder: query/argument builder and bulk-insert builder.

A shallow embedding of `builder.go` (package `sqlbuilder`).

Modelling conventions.

* A Go `string` is modelled as `List Char`, the sequence of its Unicode code
  points (the strings of the package are UTF-8 text).
* An argument (`interface{}`) is a value of an arbitrary type `α`; the builder
  never inspects it.  A slice `[]interface{}` is modelled by the list of its
  elements; whether an empty slice is `nil` does not appear, and its capacity
  appears where it is asked for: `make([]interface{}, 0, size)` panics for a
  capacity that the runtime does not allocate, and `maxCap` is the largest
  capacity that it allocates.
* A method with a pointer receiver that assigns to the receiver's fields is a
  function returning the receiver's new state.  `Query`, `Args` and `Build`
  assign to nothing and are functions of the state.
* The functions of the Go standard library that the package calls
  (`strings.TrimSpace`, `strings.HasSuffix`, `strings.TrimSuffix`,
  `strings.Count`, `strings.Repeat`, `unicode.IsSpace`) are modelled after their
  library definitions, under the Go names.
* A constructor that can panic returns `none` (`NewBuilder`) or `Result.panic`
  (`NewBulkBuilder`) where the Go function panics.
-/

namespace Sqlbuilder

/-! ## The part of Go's `unicode` and `strings` packages that is used -/

/-- Go's `unicode.IsSpace`: the Latin-1 spaces `\t \n \v \f \r`, space, U+0085,
U+00A0, and the other code points of the `White_Space` property. -/
def isSpace (c : Char) : Bool :=
  let r := c.toNat
  (0x09 ≤ r && r ≤ 0x0D) || r == 0x20 || r == 0x85 || r == 0xA0 ||
  r == 0x1680 || (0x2000 ≤ r && r ≤ 0x200A) || r == 0x2028 || r == 0x2029 ||
  r == 0x202F || r == 0x205F || r == 0x3000

/-- Go's `strings.TrimSpace`: the string without its leading and trailing white
space. -/
def TrimSpace (s : List Char) : List Char :=
  (s.dropWhile isSpace).rdropWhile isSpace

/-- Go's `strings.HasSuffix`:
`len(s) >= len(suffix) && s[len(s)-len(suffix):] == suffix`. -/
def HasSuffix (s suffix : List Char) : Bool :=
  decide (suffix.length ≤ s.length) && (s.drop (s.length - suffix.length) == suffix)

/-- Go's `strings.HasPrefix`:
`len(s) >= len(prefix) && s[:len(prefix)] == prefix`. -/
def HasPrefix (s pre : List Char) : Bool :=
  decide (pre.length ≤ s.length) && (s.take pre.length == pre)

/-- Go's `strings.TrimSuffix`: `s` without the given trailing suffix; `s` itself
when it does not end with the suffix. -/
def TrimSuffix (s suffix : List Char) : List Char :=
  if HasSuffix s suffix then s.take (s.length - suffix.length) else s

/-- The loop of Go's `strings.Count` for a non-empty `substr`: find the leftmost
occurrence, count it, continue after its end.  `skip` is the number of
characters of the last counted occurrence that are still to be passed. -/
def countFrom (substr : List Char) : Nat → List Char → Nat
  | _, [] => 0
  | skip + 1, _ :: cs => countFrom substr skip cs
  | 0, c :: cs =>
    if HasPrefix (c :: cs) substr then 1 + countFrom substr (substr.length - 1) cs
    else countFrom substr 0 cs

/-- Go's `strings.Count`: the number of non-overlapping instances of `substr` in
`s`; for the empty `substr`, one more than the number of code points of `s`. -/
def Count (s substr : List Char) : Nat :=
  if substr = [] then s.length + 1 else countFrom substr 0 s

/-- Go's `strings.Repeat` (for a count that is not negative). -/
def Repeat (s : List Char) (count : Nat) : List Char :=
  (List.replicate count s).flatten

/-! ## Builder -/

/-- The type `Builder`: the text buffer `sb` and the argument list `args`. -/
structure Builder (α : Type) where
  sb : List Char
  args : List α
deriving DecidableEq, Repr

namespace Builder

variable {α : Type}

/-- The zero value of `Builder` (`var b sqlbuilder.Builder`). -/
def zero : Builder α := { sb := [], args := [] }

/-- `Builder.appendQuery`. -/
def appendQuery (b : Builder α) (q : List Char) : Builder α :=
  let q := TrimSpace q
  { b with sb := b.sb ++ q }

/-- `Builder.AppendArgs`. -/
def AppendArgs (b : Builder α) (args : List α) : Builder α :=
  if args.length = 0 then b
  else { b with args := b.args ++ args }

/-- `Builder.Append`. -/
def Append (b : Builder α) (q : List Char) (args : List α) : Builder α :=
  let b := b.appendQuery q
  let b : Builder α := { b with sb := b.sb ++ " ".toList }
  b.AppendArgs args

/-- `Builder.AppendNoSpace`. -/
def AppendNoSpace (b : Builder α) (q : List Char) (args : List α) : Builder α :=
  let b := b.appendQuery q
  b.AppendArgs args

/-- `Builder.Query`. -/
def Query (b : Builder α) : List Char :=
  TrimSuffix b.sb " ".toList

/-- `Builder.Args`. -/
def Args (b : Builder α) : List α :=
  b.args

/-- `Builder.Build`. -/
def Build (b : Builder α) : List Char × List α :=
  (b.Query, b.Args)

/-- `Builder.Reset`. -/
def Reset (_b : Builder α) : Builder α :=
  { sb := [], args := [] }

end Builder

/-! ## Options -/

/-- The type `config`. -/
structure config where
  size : Int
  marker : List Char
  placeholder : List Char
deriving DecidableEq, Repr

/-- The zero value `new(config)`. -/
def config.zero : config := { size := 0, marker := [], placeholder := [] }

/-- The type `Option` of the package: a function that updates a `config`. -/
abbrev Opt := config → config

/-- `WithSize`. -/
def WithSize (size : Int) : Opt :=
  let size := if size < 0 then 0 else size
  fun cfg => { cfg with size := size }

/-- `WithMarker`. -/
def WithMarker (marker : List Char) : Opt :=
  let marker := if marker = [] then "(?)".toList else marker
  fun cfg => { cfg with marker := marker }

/-- `WithPlaceHolder`: it sets the placeholder (its doc comment in the source
says "the marker", the text of `WithMarker`; the default `?` that it names is
the placeholder's). -/
def WithPlaceHolder (s : List Char) : Opt :=
  let s := if s = [] then "?".toList else s
  fun cfg => { cfg with placeholder := s }

/-- `defaults`. -/
def defaults : List Opt :=
  [WithMarker [], WithSize (-1), WithPlaceHolder []]

/-- The loop `for _, opt := range opts { opt(cfg) }` on a new `config`. -/
def applyOpts (opts : List Opt) : config :=
  opts.foldl (fun cfg opt => opt cfg) config.zero

/-- Go's `make([]interface{}, 0, size)`: the empty slice, or `none` for the
run-time panic `makeslice: cap out of range`, raised when `size` is negative or
larger than `maxCap`, the largest capacity that the runtime allocates for a
slice of interface values. -/
def makeArgs {α : Type} (maxCap : Nat) (size : Int) : Option (List α) :=
  if 0 ≤ size ∧ size ≤ (maxCap : Int) then some [] else none

/-- The value of `maxCap` on the 64-bit platforms of Go: `maxAlloc` is `2^48`
bytes and an interface value takes 16 bytes. -/
def maxCap64 : Nat := 2 ^ 44

/-- `NewBuilder`: the options are applied to a new `config`, of which only
`size` is read, as the capacity of the empty argument slice; `none` when `make`
panics. -/
def NewBuilder {α : Type} (maxCap : Nat) (opts : List Opt) : Option (Builder α) :=
  let cfg := applyOpts (defaults ++ opts)
  match makeArgs maxCap cfg.size with
  | none => none
  | some args => some { sb := [], args := args }

/-! ## BulkBuilder -/

/-- The type `BulkBuilder`. -/
structure BulkBuilder (α : Type) where
  placeholders : List Char
  n : Nat
  builder : Builder α
deriving DecidableEq, Repr

/-- The two errors of the package. -/
inductive Error where
  | malformedTemplate (marker : List Char)
  | argCountMismatch
deriving DecidableEq, Repr

/-- What a call of a constructor does: it returns a value, it returns an error,
or it panics. -/
inductive Result (β : Type) where
  | ok (b : β)
  | error (e : Error)
  | panic
deriving DecidableEq, Repr

/-- `NewBulkBuilder`: the error of the guard, or the panic of `NewBuilder`, or
the new bulk builder. -/
def NewBulkBuilder {α : Type} (maxCap : Nat) (q : List Char) (opts : List Opt) :
    Result (BulkBuilder α) :=
  let opts := defaults ++ opts
  let cfg := applyOpts opts
  let q := TrimSpace q
  if !HasSuffix q cfg.marker || Count q cfg.marker != 1 then
    .error (.malformedTemplate cfg.marker)
  else
    let n := Count q ",".toList + 1
    match NewBuilder maxCap opts with
    | none => .panic
    | some builder =>
      let builder := builder.Append (TrimSuffix q cfg.marker) []
      .ok { builder := builder
            n := n
            placeholders :=
              "(".toList ++ TrimSuffix (Repeat (cfg.placeholder ++ ",".toList) n) ",".toList
                ++ "),".toList }

namespace BulkBuilder

variable {α : Type}

/-- `BulkBuilder.Bind`: the state of the receiver after the call and the
returned error (`none` for `nil`). -/
def Bind (b : BulkBuilder α) (args : List α) : BulkBuilder α × Option Error :=
  if args.length = 0 then (b, none)
  else if b.n ≠ args.length then (b, some .argCountMismatch)
  else ({ b with builder := b.builder.AppendNoSpace b.placeholders args }, none)

/-- `BulkBuilder.Build`. -/
def Build (b : BulkBuilder α) : List Char × List α :=
  (TrimSuffix b.builder.Query ",".toList, b.builder.Args)

end BulkBuilder

/-! ## Sequences of calls -/

/-- A mutating call on a `Builder`. -/
inductive Op (α : Type) where
  | append (q : List Char) (args : List α)
  | appendNoSpace (q : List Char) (args : List α)
  | appendArgs (args : List α)
  | reset
deriving DecidableEq, Repr

namespace Op

variable {α : Type}

/-- The argument list passed to a call (`Reset` takes none). -/
def args : Op α → List α
  | append _ as => as
  | appendNoSpace _ as => as
  | appendArgs as => as
  | reset => []

/-- Whether the call is one of `Append`, `AppendNoSpace`, `AppendArgs`. -/
def isAppend : Op α → Bool
  | reset => false
  | _ => true

/-- The effect of one call on the builder. -/
def apply (b : Builder α) : Op α → Builder α
  | append q as => b.Append q as
  | appendNoSpace q as => b.AppendNoSpace q as
  | appendArgs as => b.AppendArgs as
  | reset => b.Reset

end Op

/-- The calls of `ops` made in order on the builder `b`. -/
def Builder.run {α : Type} (b : Builder α) (ops : List (Op α)) : Builder α :=
  ops.foldl Op.apply b

/-- The calls `b.Append(f.1, f.2...)` for the fragments `f` of `frags`, in
order. -/
def Builder.appends {α : Type} (b : Builder α) (frags : List (List Char × List α)) :
    Builder α :=
  frags.foldl (fun b f => b.Append f.1 f.2) b

/-- The calls `b.Bind(r...)` for the rows `r` of `rows`, in order: the final
state and the error returned by each call. -/
def BulkBuilder.binds {α : Type} (b : BulkBuilder α) :
    List (List α) → BulkBuilder α × List (Option Error)
  | [] => (b, [])
  | r :: rows =>
    let (b1, e) := b.Bind r
    let (b2, es) := BulkBuilder.binds b1 rows
    (b2, e :: es)

/-- A call on a `Builder`: a mutating call or `Build`. -/
inductive Call (α : Type) where
  | op (o : Op α)
  | build
deriving DecidableEq, Repr

/-- The calls of `cs` made in order on the builder `b`: the final state and the
values returned by the `Build` calls, in order.  `Build` reads the receiver and
assigns to none of its fields. -/
def Builder.exec {α : Type} (b : Builder α) :
    List (Call α) → Builder α × List (List Char × List α)
  | [] => (b, [])
  | .op o :: cs => Builder.exec (o.apply b) cs
  | .build :: cs =>
    let r := b.Build
    let (b1, rs) := Builder.exec b cs
    (b1, r :: rs)

/-- An argument value of the tests: an integer or a string. -/
inductive Value where
  | int (n : Int)
  | str (s : List Char)
deriving DecidableEq, Repr

/-! ## Derived notions and the data of the tests -/

/-- The marker left in the configuration by the options. -/
def configuredMarker (opts : List Opt) : List Char :=
  (applyOpts (defaults ++ opts)).marker

/-- The placeholder left in the configuration by the options. -/
def configuredPlaceholder (opts : List Opt) : List Char :=
  (applyOpts (defaults ++ opts)).placeholder

/-- The capacity that the options ask of `make` is one that it allocates: the
configured size is not negative and not larger than `maxCap`. -/
abbrev capacityAllocated (maxCap : Nat) (opts : List Opt) : Prop :=
  0 ≤ (applyOpts (defaults ++ opts)).size
    ∧ (applyOpts (defaults ++ opts)).size ≤ (maxCap : Int)

/-- The bulk builder that `NewBulkBuilder` returns when it returns one. -/
def newBulk {α : Type} (q : List Char) (opts : List Opt) : BulkBuilder α :=
  { builder := (Builder.zero : Builder α).Append
      (TrimSuffix (TrimSpace q) (configuredMarker opts)) []
    n := Count (TrimSpace q) ",".toList + 1
    placeholders :=
      "(".toList
        ++ TrimSuffix (Repeat (configuredPlaceholder opts ++ ",".toList)
            (Count (TrimSpace q) ",".toList + 1)) ",".toList
        ++ "),".toList }

/-- The row-placeholder group without its separator: the placeholder `p`
repeated `n` times, joined by commas, in parentheses. -/
def rowGroup (p : List Char) (n : Nat) : List Char :=
  "(".toList ++ ",".toList.intercalate (List.replicate n p) ++ ")".toList

/-- The three `Append` calls of `TestBuilder_Build`. -/
def testBuilderFrags : List (List Char × List Value) :=
  [("SELECT * FROM test_user WHERE id = ? ".toList, [.int 1]),
   ("AND name = ?".toList, [.str "John".toList]),
   (" ORDER BY name LIMIT ?, ?".toList, [.int 0, .int 10])]

/-- The three `Append` calls of `TestBuilder_Build`, as calls. -/
def testBuilderOps : List (Op Value) :=
  testBuilderFrags.map (fun f => Op.append f.1 f.2)

/-- The template of `TestNewBulkBuilder` and `TestBulkBuilder_Build`. -/
def testTemplate : List Char := "INSERT INTO tbl_name (a,b,c) VALUES (?)".toList

/-- The builder that `NewBulkBuilder` returns for `testTemplate`. -/
def testBulkBuilder : BulkBuilder Value :=
  { placeholders := "(?,?,?),".toList
    n := 3
    builder := { sb := "INSERT INTO tbl_name (a,b,c) VALUES ".toList, args := [] } }

/-- A call on a `BulkBuilder`: `Bind` with its arguments, or `Build`. -/
inductive BulkCall (α : Type) where
  | bind (args : List α)
  | build
deriving DecidableEq, Repr

/-- The arguments of the `Bind` calls of a sequence of calls, in order. -/
def BulkCall.bindRows {α : Type} : List (BulkCall α) → List (List α)
  | [] => []
  | .bind r :: cs => r :: BulkCall.bindRows cs
  | .build :: cs => BulkCall.bindRows cs

/-- The calls of `cs` made in order on the bulk builder `b`: the final state and
the values returned by the `Build` calls, in order.  `BulkBuilder.Build` reads
the receiver and assigns to none of its fields. -/
def BulkBuilder.exec {α : Type} (b : BulkBuilder α) :
    List (BulkCall α) → BulkBuilder α × List (List Char × List α)
  | [] => (b, [])
  | .bind r :: cs => BulkBuilder.exec (b.Bind r).1 cs
  | .build :: cs =>
    let r := b.Build
    let (b1, rs) := BulkBuilder.exec b cs
    (b1, r :: rs)

/-- An option as the package lets a caller write it: one of the three
constructors with its argument. -/
inductive OptSpec where
  | withSize (size : Int)
  | withMarker (marker : List Char)
  | withPlaceHolder (s : List Char)
deriving DecidableEq, Repr

/-- The `Option` value that the constructor returns. -/
def OptSpec.toOpt : OptSpec → Opt
  | .withSize size => WithSize size
  | .withMarker marker => WithMarker marker
  | .withPlaceHolder s => WithPlaceHolder s

/-- The argument of the last `WithMarker` of an option list, if there is one. -/
def lastMarker (opts : List OptSpec) : Option (List Char) :=
  (opts.filterMap (fun o => match o with
    | .withMarker m => some m
    | _ => none)).getLast?

/-- The argument of the last `WithPlaceHolder` of an option list, if there is
one. -/
def lastPlaceHolder (opts : List OptSpec) : Option (List Char) :=
  (opts.filterMap (fun o => match o with
    | .withPlaceHolder s => some s
    | _ => none)).getLast?

/-- The argument of the last `WithSize` of an option list, if there is one. -/
def lastSize (opts : List OptSpec) : Option Int :=
  (opts.filterMap (fun o => match o with
    | .withSize n => some n
    | _ => none)).getLast?

/-- The number of `Bind` calls that had at least one argument and returned no
error, given the rows passed and the errors returned. -/
def successfulBinds {α : Type} (rows : List (List α)) (errs : List (Option Error)) : Nat :=
  ((rows.zip errs).filter (fun re => decide (re.1.length ≠ 0) && re.2.isNone)).length

/-- The positions at which `substr` occurs in `s`: the `p` such that `s[p:]`
starts with `substr`. -/
def positions (s substr : List Char) : List Nat :=
  (List.range (s.length + 1)).filter (fun p => HasPrefix (s.drop p) substr)

/-- Whether a string can overlap itself: some proper non-empty prefix of it is
also its suffix. -/
def selfOverlaps (m : List Char) : Bool :=
  (List.range m.length).any (fun k => decide (0 < k) && (m.take k == m.drop (m.length - k)))

/-! ## Lemmas on the string functions -/

theorem hasSuffix_iff (s suffix : List Char) :
    HasSuffix s suffix = true ↔ suffix <:+ s := by
  unfold HasSuffix
  simp only [Bool.and_eq_true, decide_eq_true_eq, beq_iff_eq]
  constructor
  · intro h
    refine ⟨s.take (s.length - suffix.length), ?_⟩
    have e := List.take_append_drop (s.length - suffix.length) s
    rwa [h.2] at e
  · rintro ⟨t, rfl⟩
    simp

theorem hasPrefix_iff (s pre : List Char) :
    HasPrefix s pre = true ↔ pre <+: s := by
  unfold HasPrefix
  simp only [Bool.and_eq_true, decide_eq_true_eq, beq_iff_eq]
  constructor
  · intro h
    refine ⟨s.drop pre.length, ?_⟩
    have e := List.take_append_drop pre.length s
    rwa [h.2] at e
  · rintro ⟨t, rfl⟩
    simp

theorem trimSuffix_append (s suffix : List Char) :
    TrimSuffix (s ++ suffix) suffix = s := by
  unfold TrimSuffix
  rw [if_pos ((hasSuffix_iff _ _).2 (List.suffix_append s suffix))]
  simp

theorem trimSuffix_of_not_suffix (s suffix : List Char) (h : ¬ suffix <:+ s) :
    TrimSuffix s suffix = s := by
  unfold TrimSuffix
  rw [if_neg]
  rwa [hasSuffix_iff]

/-- Fragments that each carry a trailing separator, concatenated, are the
fragments joined by the separator, followed by one separator. -/
theorem flatten_map_append_sep (sep : List Char) (x : List Char) (xs : List (List Char)) :
    ((x :: xs).map (· ++ sep)).flatten = sep.intercalate (x :: xs) ++ sep := by
  induction xs generalizing x with
  | nil => simp [List.intercalate]
  | cons y ys ih =>
    have h := ih y
    simp only [List.map_cons, List.flatten_cons] at h ⊢
    rw [h]
    simp [List.intercalate, List.intersperse]

theorem appends_sb {α : Type} (frags : List (List Char × List α)) (b : Builder α) :
    (b.appends frags).sb = b.sb ++ (frags.map (fun f => TrimSpace f.1 ++ [' '])).flatten := by
  induction frags generalizing b with
  | nil => simp [Builder.appends]
  | cons f fs ih =>
    have h := ih (b.Append f.1 f.2)
    simp only [Builder.appends, List.foldl_cons] at h ⊢
    rw [h]
    simp [Builder.Append, Builder.appendQuery, Builder.AppendArgs]
    split <;> simp

theorem appends_query {α : Type} (frags : List (List Char × List α)) :
    ((Builder.zero : Builder α).appends frags).Query
      = [' '].intercalate (frags.map (fun f => TrimSpace f.1)) := by
  unfold Builder.Query
  rw [appends_sb]
  cases frags with
  | nil => simp [Builder.zero, TrimSuffix, HasSuffix, List.intercalate]
  | cons f fs =>
    have h := flatten_map_append_sep [' '] (TrimSpace f.1) (fs.map (fun f => TrimSpace f.1))
    simp only [List.map_cons, List.map_map] at h ⊢
    simp only [Builder.zero, List.nil_append]
    have e : " ".toList = [' '] := rfl
    rw [e]
    show TrimSuffix ((TrimSpace f.1 ++ [' ']) :: List.map (fun f => TrimSpace f.1 ++ [' ']) fs).flatten _ = _
    have h2 : List.map ((fun x => x ++ [' ']) ∘ fun f : List Char × List α => TrimSpace f.1) fs
        = List.map (fun f => TrimSpace f.1 ++ [' ']) fs := rfl
    rw [h2] at h
    rw [h, trimSuffix_append]

/-! ## Builder: the built text and arguments -/

/-- C1: fragments appended in order with `Append` to an empty `Builder` build
the text made of the whitespace-trimmed fragments joined by one space (the
empty text for no fragment), whatever the arguments of the calls; the three
fragments of `TestBuilder_Build` give the text the test expects. -/
theorem C1_append_text_is_trimmed_fragments_joined :
    (∀ (α : Type) (frags : List (List Char × List α)),
      ((Builder.zero : Builder α).appends frags).Build.1
          = " ".toList.intercalate (frags.map (fun f => TrimSpace f.1))
        ∧ ((Builder.zero : Builder α).appends frags).Query
          = " ".toList.intercalate (frags.map (fun f => TrimSpace f.1)))
    ∧ ((Builder.zero : Builder Value).appends []).Build.1 = []
    ∧ ((Builder.zero : Builder Value).appends testBuilderFrags).Build.1
        = "SELECT * FROM test_user WHERE id = ? AND name = ? ORDER BY name LIMIT ?, ?".toList := by
  refine ⟨fun α frags => ⟨appends_query frags, appends_query frags⟩, by decide, ?_⟩
  decide

theorem appendArgs_args {α : Type} (b : Builder α) (args : List α) :
    (b.AppendArgs args).args = b.args ++ args := by
  unfold Builder.AppendArgs
  split
  · rename_i h
    rw [List.length_eq_zero.1 h, List.append_nil]
  · rfl

theorem appendArgs_sb {α : Type} (b : Builder α) (args : List α) :
    (b.AppendArgs args).sb = b.sb := by
  unfold Builder.AppendArgs
  split <;> rfl

theorem append_args {α : Type} (b : Builder α) (q : List Char) (args : List α) :
    (b.Append q args).args = b.args ++ args := by
  simp [Builder.Append, appendArgs_args, Builder.appendQuery]

theorem append_sb {α : Type} (b : Builder α) (q : List Char) (args : List α) :
    (b.Append q args).sb = b.sb ++ TrimSpace q ++ [' '] := by
  simp [Builder.Append, appendArgs_sb, Builder.appendQuery]

theorem appendNoSpace_args {α : Type} (b : Builder α) (q : List Char) (args : List α) :
    (b.AppendNoSpace q args).args = b.args ++ args := by
  simp [Builder.AppendNoSpace, appendArgs_args, Builder.appendQuery]

theorem appendNoSpace_sb {α : Type} (b : Builder α) (q : List Char) (args : List α) :
    (b.AppendNoSpace q args).sb = b.sb ++ TrimSpace q := by
  simp [Builder.AppendNoSpace, appendArgs_sb, Builder.appendQuery]

theorem apply_args {α : Type} (b : Builder α) (o : Op α) (h : o.isAppend = true) :
    (o.apply b).args = b.args ++ o.args := by
  cases o with
  | append q as => exact append_args b q as
  | appendNoSpace q as => exact appendNoSpace_args b q as
  | appendArgs as => exact appendArgs_args b as
  | reset => simp [Op.isAppend] at h

theorem run_args {α : Type} (ops : List (Op α)) (b : Builder α)
    (h : ∀ o ∈ ops, o.isAppend = true) :
    (b.run ops).args = b.args ++ (ops.map Op.args).flatten := by
  induction ops generalizing b with
  | nil => simp [Builder.run]
  | cons o os ih =>
    have h1 := ih (o.apply b) (fun x hx => h x (List.mem_cons_of_mem _ hx))
    simp only [Builder.run, List.foldl_cons] at h1 ⊢
    rw [h1, apply_args b o (h o (List.mem_cons_self _ _))]
    simp

/-- C6: after any sequence of `Append`, `AppendNoSpace` and `AppendArgs` calls
on an empty `Builder`, the argument list returned by `Args` and by `Build` is
the concatenation, in call order, of the argument lists of the calls. -/
theorem C6_args_are_concatenation_in_call_order {α : Type} (ops : List (Op α))
    (h : ∀ o ∈ ops, o.isAppend = true) :
    ((Builder.zero : Builder α).run ops).Args = (ops.map Op.args).flatten
      ∧ ((Builder.zero : Builder α).run ops).Build.2 = (ops.map Op.args).flatten := by
  have e := run_args ops (Builder.zero : Builder α) h
  simp only [Builder.zero, List.nil_append] at e
  exact ⟨e, e⟩

/-- C6 at the calls of `TestBuilder_Build`: the arguments are
`[1, "John", 0, 10]`. -/
theorem C6_args_are_concatenation_in_call_order_witness :
    (∀ o ∈ testBuilderOps, o.isAppend = true)
      ∧ (((Builder.zero : Builder Value).run testBuilderOps).Args
            = [.int 1, .str "John".toList, .int 0, .int 10]
          ∧ ((Builder.zero : Builder Value).run testBuilderOps).Build.2
            = [.int 1, .str "John".toList, .int 0, .int 10]) :=
  ⟨by decide, C6_args_are_concatenation_in_call_order testBuilderOps (by decide)⟩

/-- C8: from every state, `Reset` followed by `Build` yields the empty text and
the empty argument list, and every sequence of calls made after `Reset` yields
the same state and the same `Build` result as the same sequence made on an empty
`Builder`. -/
theorem C8_reset_gives_fresh_builder {α : Type} (b : Builder α) :
    b.Reset.Build = ([], [])
      ∧ ∀ ops : List (Op α),
          (b.Reset.run ops).Build = ((Builder.zero : Builder α).run ops).Build
            ∧ b.Reset.run ops = (Builder.zero : Builder α).run ops := by
  have e : b.Reset = (Builder.zero : Builder α) := rfl
  refine ⟨?_, fun ops => by rw [e]; exact ⟨rfl, rfl⟩⟩
  rw [e]
  simp [Builder.Build, Builder.Query, Builder.Args, Builder.zero, TrimSuffix, HasSuffix]

/-- C9: from every state, `Append(q, args...)` leaves the same argument list as
`AppendNoSpace(q, args...)` and a buffer that is the buffer left by
`AppendNoSpace` followed by exactly one space; `AppendNoSpace(a)` followed by
`Append(c)` on an empty `Builder` builds `TrimSpace(a) ++ TrimSpace(c)`. -/
theorem C9_appendNoSpace_is_append_without_separator {α : Type} :
    (∀ (b : Builder α) (q : List Char) (args : List α),
      (b.Append q args).args = (b.AppendNoSpace q args).args
        ∧ (b.Append q args).sb = (b.AppendNoSpace q args).sb ++ [' '])
    ∧ ∀ (a c : List Char) (as cs : List α),
        (((Builder.zero : Builder α).AppendNoSpace a as).Append c cs).Build.1
          = TrimSpace a ++ TrimSpace c := by
  refine ⟨fun b q args => ⟨?_, ?_⟩, fun a c as cs => ?_⟩
  · rw [append_args, appendNoSpace_args]
  · rw [append_sb, appendNoSpace_sb]
  · show TrimSuffix _ _ = _
    rw [append_sb, appendNoSpace_sb]
    simp only [Builder.zero, List.nil_append]
    exact trimSuffix_append _ _

theorem exec_builds {α : Type} (b : Builder α) (k : Nat) :
    b.exec (List.replicate k Call.build) = (b, List.replicate k b.Build) := by
  induction k with
  | zero => rfl
  | succ k ih => simp [List.replicate_succ, Builder.exec, ih]

/-- C10: in every state, `Build` returns `(Query(), Args())`; `Query()` is the
buffer without its last character when the buffer ends with a space, and the
buffer itself otherwise, so that a buffer ending in two spaces gives a text
ending in one space; `Build` leaves the state as it is, and `k` consecutive
`Build` calls all return the same value. -/
theorem C10_build_strips_one_trailing_space {α : Type} (b : Builder α) :
    b.Build = (b.Query, b.Args)
      ∧ b.Args = b.args
      ∧ (b.sb.getLast? = some ' ' → b.Query ++ [' '] = b.sb)
      ∧ (b.sb.getLast? ≠ some ' ' → b.Query = b.sb)
      ∧ (∀ x : List Char, b.sb = x ++ [' ', ' '] → b.Query = x ++ [' '])
      ∧ ∀ k : Nat, b.exec (List.replicate k Call.build) = (b, List.replicate k b.Build) := by
  refine ⟨rfl, rfl, ?_, ?_, ?_, exec_builds b⟩
  · intro h
    obtain ⟨x, hx⟩ : ∃ x, b.sb = x ++ [' '] := by
      rcases List.eq_nil_or_concat b.sb with h0 | ⟨x, c, hx⟩
      · rw [h0] at h; simp at h
      · rw [hx] at h
        simp at h
        exact ⟨x, by rw [hx, h, List.concat_eq_append]⟩
    show TrimSuffix _ _ ++ _ = _
    rw [hx]
    exact congrArg (· ++ [' ']) (trimSuffix_append x [' '])
  · intro h
    apply trimSuffix_of_not_suffix
    rintro ⟨t, ht⟩
    apply h
    rw [← ht]
    simp
  · intro x hx
    show TrimSuffix _ _ = _
    have e : x ++ [' ', ' '] = (x ++ [' ']) ++ [' '] := by simp
    rw [hx, e]
    exact trimSuffix_append _ _

/-! ## BulkBuilder: construction and `Bind` -/

theorem applyOpts_defaults_twice (opts : List Opt) :
    applyOpts (defaults ++ (defaults ++ opts)) = applyOpts (defaults ++ opts) := by
  unfold applyOpts
  rw [List.foldl_append, List.foldl_append, List.foldl_append]
  rfl

theorem newBuilder_eq {α : Type} (maxCap : Nat) (opts : List Opt) :
    (NewBuilder maxCap opts : Option (Builder α))
      = if capacityAllocated maxCap opts then some Builder.zero else none := by
  unfold NewBuilder makeArgs
  simp only []
  by_cases h : capacityAllocated maxCap opts
  · rw [if_pos h, if_pos h]
    rfl
  · rw [if_neg h, if_neg h]

/-- The three cases of `NewBulkBuilder`: the guard fails, `make` panics, or the
bulk builder is returned. -/
theorem newBulkBuilder_eq {α : Type} (maxCap : Nat) (q : List Char) (opts : List Opt) :
    (NewBulkBuilder maxCap q opts : Result (BulkBuilder α))
      = if configuredMarker opts <:+ TrimSpace q
            ∧ Count (TrimSpace q) (configuredMarker opts) = 1 then
          if capacityAllocated maxCap (defaults ++ opts) then .ok (newBulk q opts) else .panic
        else .error (.malformedTemplate (configuredMarker opts)) := by
  unfold NewBulkBuilder configuredMarker
  simp only []
  rw [newBuilder_eq]
  by_cases hg : (applyOpts (defaults ++ opts)).marker <:+ TrimSpace q
      ∧ Count (TrimSpace q) (applyOpts (defaults ++ opts)).marker = 1
  · have hc : ¬ ((!HasSuffix (TrimSpace q) (applyOpts (defaults ++ opts)).marker
        || Count (TrimSpace q) (applyOpts (defaults ++ opts)).marker != 1) = true) := by
      simp [(hasSuffix_iff _ _).2 hg.1, hg.2]
    rw [if_neg hc, if_pos hg]
    by_cases hs : capacityAllocated maxCap (defaults ++ opts)
    · rw [if_pos hs, if_pos hs]
      rfl
    · rw [if_neg hs, if_neg hs]
  · have hc : (!HasSuffix (TrimSpace q) (applyOpts (defaults ++ opts)).marker
        || Count (TrimSpace q) (applyOpts (defaults ++ opts)).marker != 1) = true := by
      simp only [Bool.or_eq_true, Bool.not_eq_true', bne_iff_ne]
      by_contra hn
      apply hg
      simp only [not_or, Bool.not_eq_false, not_not] at hn
      exact ⟨(hasSuffix_iff _ _).1 hn.1, hn.2⟩
    rw [if_pos hc, if_neg hg]

theorem capacityAllocated_defaults (maxCap : Nat) (opts : List Opt) :
    capacityAllocated maxCap (defaults ++ opts) ↔ capacityAllocated maxCap opts := by
  unfold capacityAllocated
  rw [applyOpts_defaults_twice]

theorem newBulkBuilder_ok_iff {α : Type} (maxCap : Nat) (q : List Char) (opts : List Opt) :
    (∃ b : BulkBuilder α, NewBulkBuilder maxCap q opts = .ok b)
      ↔ (configuredMarker opts <:+ TrimSpace q
          ∧ Count (TrimSpace q) (configuredMarker opts) = 1
          ∧ capacityAllocated maxCap opts) := by
  rw [newBulkBuilder_eq, ← capacityAllocated_defaults maxCap opts]
  by_cases hg : configuredMarker opts <:+ TrimSpace q
      ∧ Count (TrimSpace q) (configuredMarker opts) = 1
  · rw [if_pos hg]
    by_cases hs : capacityAllocated maxCap (defaults ++ opts)
    · rw [if_pos hs]
      exact ⟨fun _ => ⟨hg.1, hg.2, hs⟩, fun _ => ⟨_, rfl⟩⟩
    · rw [if_neg hs]
      constructor
      · rintro ⟨b, hb⟩
        cases hb
      · rintro ⟨-, -, h3⟩
        exact absurd h3 hs
  · rw [if_neg hg]
    constructor
    · rintro ⟨b, hb⟩
      cases hb
    · rintro ⟨h1, h2, -⟩
      exact absurd ⟨h1, h2⟩ hg

theorem newBulkBuilder_ok_eq {α : Type} {maxCap : Nat} {q : List Char} {opts : List Opt}
    {b : BulkBuilder α} (h : NewBulkBuilder maxCap q opts = .ok b) : b = newBulk q opts := by
  rw [newBulkBuilder_eq] at h
  split at h
  · split at h
    · cases h
      rfl
    · cases h
  · cases h

theorem newBulkBuilder_error_iff {α : Type} (maxCap : Nat) (q : List Char) (opts : List Opt) :
    (∃ e, (NewBulkBuilder maxCap q opts : Result (BulkBuilder α)) = .error e)
      ↔ (¬ configuredMarker opts <:+ TrimSpace q
          ∨ Count (TrimSpace q) (configuredMarker opts) ≠ 1) := by
  rw [newBulkBuilder_eq, ← not_and_or]
  by_cases hg : configuredMarker opts <:+ TrimSpace q
      ∧ Count (TrimSpace q) (configuredMarker opts) = 1
  · rw [if_pos hg]
    constructor
    · rintro ⟨e, he⟩
      split at he
      · cases he
      · cases he
    · intro hn
      exact absurd hg hn
  · rw [if_neg hg]
    exact ⟨fun _ => hg, fun _ => ⟨_, rfl⟩⟩

theorem newBulkBuilder_panic_iff {α : Type} (maxCap : Nat) (q : List Char) (opts : List Opt) :
    (NewBulkBuilder maxCap q opts : Result (BulkBuilder α)) = .panic
      ↔ (configuredMarker opts <:+ TrimSpace q
          ∧ Count (TrimSpace q) (configuredMarker opts) = 1
          ∧ ¬ capacityAllocated maxCap opts) := by
  rw [newBulkBuilder_eq, ← capacityAllocated_defaults maxCap opts]
  by_cases hg : configuredMarker opts <:+ TrimSpace q
      ∧ Count (TrimSpace q) (configuredMarker opts) = 1
  · rw [if_pos hg]
    by_cases hs : capacityAllocated maxCap (defaults ++ opts)
    · rw [if_pos hs]
      constructor
      · intro h
        cases h
      · rintro ⟨-, -, h3⟩
        exact absurd hs h3
    · rw [if_neg hs]
      exact ⟨fun _ => ⟨hg.1, hg.2, hs⟩, fun _ => rfl⟩
  · rw [if_neg hg]
    constructor
    · intro h
      cases h
    · rintro ⟨h1, h2, -⟩
      exact absurd ⟨h1, h2⟩ hg

/-- C3, an input on which it fails: for the template of the tests with
`WithSize(9223372036854775807)` the trimmed template ends with the marker and
the marker's count is one, but `NewBulkBuilder` panics in `make` and returns
neither a builder nor an error. -/
theorem C3_counterexample :
    configuredMarker [WithSize 9223372036854775807] <:+ TrimSpace testTemplate
      ∧ Count (TrimSpace testTemplate) (configuredMarker [WithSize 9223372036854775807]) = 1
      ∧ (NewBulkBuilder maxCap64 testTemplate [WithSize 9223372036854775807]
          : Result (BulkBuilder Value)) = .panic
      ∧ (¬ ∃ b : BulkBuilder Value,
          NewBulkBuilder maxCap64 testTemplate [WithSize 9223372036854775807] = .ok b)
      ∧ ¬ ∃ e, (NewBulkBuilder maxCap64 testTemplate [WithSize 9223372036854775807]
          : Result (BulkBuilder Value)) = .error e := by
  have hp : (NewBulkBuilder maxCap64 testTemplate [WithSize 9223372036854775807]
      : Result (BulkBuilder Value)) = .panic := by decide
  refine ⟨by decide, by decide, hp, ?_, ?_⟩
  · rintro ⟨b, hb⟩
    rw [hp] at hb
    cases hb
  · rintro ⟨e, he⟩
    rw [hp] at he
    cases he

/-- C3, amended: `NewBulkBuilder` returns an error, and no builder, exactly when
the whitespace-trimmed template does not end with the configured marker or the
marker's count in the trimmed template is not one; otherwise it returns a
builder when the configured size is a capacity that `make` allocates, and it
panics in `make`, returning neither, when it is not.  The template of the tests
succeeds; the one without a marker and the one with the marker followed by a
comma fail. -/
theorem C3_newBulkBuilder_fails_iff_marker_not_single_suffix :
    (∀ (α : Type) (maxCap : Nat) (q : List Char) (opts : List Opt),
      ((∃ e, (NewBulkBuilder maxCap q opts : Result (BulkBuilder α)) = .error e)
          ↔ (¬ configuredMarker opts <:+ TrimSpace q
              ∨ Count (TrimSpace q) (configuredMarker opts) ≠ 1))
        ∧ ((∃ b : BulkBuilder α, NewBulkBuilder maxCap q opts = .ok b)
          ↔ (¬ (¬ configuredMarker opts <:+ TrimSpace q
                ∨ Count (TrimSpace q) (configuredMarker opts) ≠ 1)
              ∧ capacityAllocated maxCap opts))
        ∧ ((NewBulkBuilder maxCap q opts : Result (BulkBuilder α)) = .panic
          ↔ (¬ (¬ configuredMarker opts <:+ TrimSpace q
                ∨ Count (TrimSpace q) (configuredMarker opts) ≠ 1)
              ∧ ¬ capacityAllocated maxCap opts)))
    ∧ (∃ b : BulkBuilder Value, NewBulkBuilder maxCap64 testTemplate [] = .ok b)
    ∧ (∃ e, (NewBulkBuilder maxCap64
          "INSERT IGNORE INTO tbl_name (a,b,c) VALUES (?,?,?)".toList []
          : Result (BulkBuilder Value)) = .error e)
    ∧ (∃ e, (NewBulkBuilder maxCap64 "INSERT INTO tbl_name (a,b,c) VALUES (?),".toList []
          : Result (BulkBuilder Value)) = .error e) := by
  refine ⟨fun α maxCap q opts => ⟨newBulkBuilder_error_iff maxCap q opts, ?_, ?_⟩,
    ⟨_, rfl⟩, ⟨_, rfl⟩, ⟨_, rfl⟩⟩
  · rw [newBulkBuilder_ok_iff, not_or, not_not, not_not, and_assoc]
  · rw [newBulkBuilder_panic_iff, not_or, not_not, not_not, and_assoc]

theorem countFrom_singleton (c : Char) (s : List Char) :
    countFrom [c] 0 s = s.count c := by
  induction s with
  | nil => rfl
  | cons x xs ih =>
    unfold countFrom
    simp only [List.length_singleton, Nat.sub_self, ih, List.count_cons]
    by_cases hx : x = c
    · subst hx
      simp [HasPrefix, Nat.add_comm]
    · have : ¬ (x == c) = true := by simpa using hx
      simp [HasPrefix, hx]

theorem count_singleton (c : Char) (s : List Char) : Count s [c] = s.count c := by
  simp [Count, countFrom_singleton]

theorem newBulkBuilder_n {α : Type} {maxCap : Nat} (q : List Char) (opts : List Opt)
    (b : BulkBuilder α) (h : NewBulkBuilder maxCap q opts = .ok b) :
    b.n = (TrimSpace q).count ',' + 1 := by
  rw [newBulkBuilder_ok_eq h]
  exact congrArg (· + 1) (count_singleton ',' (TrimSpace q))

theorem bind_n {α : Type} (b : BulkBuilder α) (args : List α) :
    (b.Bind args).1.n = b.n ∧ (b.Bind args).1.placeholders = b.placeholders := by
  unfold BulkBuilder.Bind
  split
  · exact ⟨rfl, rfl⟩
  · split <;> exact ⟨rfl, rfl⟩

theorem binds_n {α : Type} (rows : List (List α)) (b : BulkBuilder α) :
    (b.binds rows).1.n = b.n ∧ (b.binds rows).1.placeholders = b.placeholders := by
  induction rows generalizing b with
  | nil => exact ⟨rfl, rfl⟩
  | cons r rs ih =>
    have h := ih (b.Bind r).1
    rw [(bind_n b r).1, (bind_n b r).2] at h
    exact h

theorem bind_error_iff {α : Type} (b : BulkBuilder α) (args : List α) :
    (b.Bind args).2 ≠ none ↔ (args.length ≠ 0 ∧ args.length ≠ b.n) := by
  unfold BulkBuilder.Bind
  split
  · rename_i h
    simp [h]
  · rename_i h
    split
    · rename_i h2
      simp [h, Ne.symm h2]
    · rename_i h2
      simp only [ne_eq, not_not] at h2
      simp [h2]

/-- C4: for a bulk builder constructed from the template `q`, the row arity is
the number of commas of the whitespace-trimmed `q` plus one, and, in the
constructed state and in every state reached from it by `Bind` calls, `Bind`
returns an error exactly when the number of its arguments is neither zero nor
the row arity: a `Bind` with as many arguments as the row arity succeeds, and a
`Bind` without arguments succeeds. -/
theorem C4_row_arity_and_bind_error {α : Type} (maxCap : Nat) (q : List Char) (opts : List Opt)
    (b : BulkBuilder α) (h : NewBulkBuilder maxCap q opts = .ok b) :
    b.n = (TrimSpace q).count ',' + 1
      ∧ ∀ (rows : List (List α)) (args : List α),
          (b.binds rows).1.n = b.n
            ∧ ((((b.binds rows).1).Bind args).2 ≠ none ↔ (args.length ≠ 0 ∧ args.length ≠ b.n))
            ∧ (args.length = b.n → (((b.binds rows).1).Bind args).2 = none)
            ∧ (args.length = 0 → (((b.binds rows).1).Bind args).2 = none) := by
  refine ⟨newBulkBuilder_n q opts b h, fun rows args => ?_⟩
  have hn := (binds_n rows b).1
  have hb := bind_error_iff (b.binds rows).1 args
  rw [hn] at hb
  refine ⟨hn, hb, fun h1 => ?_, fun h0 => ?_⟩
  · by_contra hc
    exact (hb.1 hc).2 h1
  · by_contra hc
    exact (hb.1 hc).1 h0

/-- C4 at the template of `TestBulkBuilder_Build`: the row arity is three, and a
`Bind` of four values fails. -/
theorem C4_row_arity_and_bind_error_witness :
    (NewBulkBuilder maxCap64 testTemplate [] = .ok testBulkBuilder)
      ∧ testBulkBuilder.n = 3
      ∧ (testBulkBuilder.Bind
          [.str "a".toList, .str "b".toList, .str "c".toList, .str "d".toList]).2
          = some .argCountMismatch
      ∧ (testBulkBuilder.n = (TrimSpace testTemplate).count ',' + 1
        ∧ ∀ (rows : List (List Value)) (args : List Value),
          (testBulkBuilder.binds rows).1.n = testBulkBuilder.n
            ∧ ((((testBulkBuilder.binds rows).1).Bind args).2 ≠ none
                ↔ (args.length ≠ 0 ∧ args.length ≠ testBulkBuilder.n))
            ∧ (args.length = testBulkBuilder.n
                → (((testBulkBuilder.binds rows).1).Bind args).2 = none)
            ∧ (args.length = 0 → (((testBulkBuilder.binds rows).1).Bind args).2 = none)) :=
  ⟨rfl, by decide, by decide,
    C4_row_arity_and_bind_error maxCap64 testTemplate [] testBulkBuilder rfl⟩

/-- C5: in every state of a bulk builder, a `Bind` call whose number of
arguments differs from the row arity (failing, or succeeding with no argument)
leaves the whole state as it was, so that `Build` returns the same text and
arguments after the call as before it. -/
theorem C5_bind_with_other_count_changes_nothing {α : Type} (b : BulkBuilder α)
    (args : List α) (h : args.length ≠ b.n) :
    (b.Bind args).1 = b ∧ (b.Bind args).1.Build = b.Build := by
  have e : (b.Bind args).1 = b := by
    unfold BulkBuilder.Bind
    split
    · rfl
    · rw [if_pos (Ne.symm h)]
  exact ⟨e, by rw [e]⟩

/-- C5 on the builder of `TestBulkBuilder_Build` after one row: a `Bind` of four
values and a `Bind` of none leave the state unchanged. -/
theorem C5_bind_with_other_count_changes_nothing_witness :
    ([Value.int 1, .int 2, .int 3, .int 4].length
        ≠ (testBulkBuilder.Bind [.int 7, .int 8, .int 9]).1.n)
      ∧ (((testBulkBuilder.Bind [.int 7, .int 8, .int 9]).1.Bind
            [.int 1, .int 2, .int 3, .int 4]).1
          = (testBulkBuilder.Bind [.int 7, .int 8, .int 9]).1
        ∧ ((testBulkBuilder.Bind [.int 7, .int 8, .int 9]).1.Bind
            [.int 1, .int 2, .int 3, .int 4]).1.Build
          = (testBulkBuilder.Bind [.int 7, .int 8, .int 9]).1.Build) :=
  ⟨by decide,
    C5_bind_with_other_count_changes_nothing
      (testBulkBuilder.Bind [.int 7, .int 8, .int 9]).1 [.int 1, .int 2, .int 3, .int 4]
      (by decide)⟩

/-! ## BulkBuilder: the built statement -/

theorem repeat_append_sep (x sep : List Char) (k : Nat) :
    Repeat (x ++ sep) (k + 1) = sep.intercalate (List.replicate (k + 1) x) ++ sep := by
  have h := flatten_map_append_sep sep x (List.replicate k x)
  rw [← List.replicate_succ, List.map_replicate] at h
  exact h

theorem trimSpace_of_ends (c d : Char) (t : List Char) (hc : isSpace c = false)
    (hd : isSpace d = false) : TrimSpace (c :: (t ++ [d])) = c :: (t ++ [d]) := by
  unfold TrimSpace
  have h1 : (c :: (t ++ [d])).dropWhile isSpace = c :: (t ++ [d]) := by
    simp [List.dropWhile_cons, hc]
  rw [h1]
  have h2 : c :: (t ++ [d]) = (c :: t) ++ [d] := rfl
  rw [h2]
  exact List.rdropWhile_concat_neg _ _ _ (by simp [hd])

theorem newBulkBuilder_fields {α : Type} {maxCap : Nat} (q : List Char) (opts : List Opt)
    (b : BulkBuilder α) (h : NewBulkBuilder maxCap q opts = .ok b) :
    b.builder.sb = TrimSpace (TrimSuffix (TrimSpace q) (configuredMarker opts)) ++ [' ']
      ∧ b.builder.args = []
      ∧ b.placeholders = rowGroup (configuredPlaceholder opts) b.n ++ [',']
      ∧ 1 ≤ b.n := by
  have hn := newBulkBuilder_n q opts b h
  rw [newBulkBuilder_ok_eq h] at hn ⊢
  refine ⟨?_, ?_, ?_, by omega⟩
  · show ((Builder.zero : Builder α).Append _ []).sb = _
    rw [append_sb]
    rfl
  · show ((Builder.zero : Builder α).Append _ []).args = _
    rw [append_args]
    rfl
  · show "(".toList ++ TrimSuffix (Repeat (configuredPlaceholder opts ++ ",".toList)
        (Count (TrimSpace q) ",".toList + 1)) ",".toList ++ "),".toList = _
    have e : ",".toList = [','] := rfl
    rw [e, repeat_append_sep, trimSuffix_append]
    simp [rowGroup, newBulk, count_singleton]

theorem trimSpace_group (p : List Char) (n : Nat) :
    TrimSpace (rowGroup p n ++ [',']) = rowGroup p n ++ [','] := by
  have e : rowGroup p n ++ [',']
      = '(' :: (([','].intercalate (List.replicate n p) ++ [')']) ++ [',']) := by
    simp [rowGroup]
  rw [e]
  exact trimSpace_of_ends '(' ',' _ (by decide) (by decide)

theorem binds_full_rows {α : Type} (rows : List (List α)) (b : BulkBuilder α) (hn : 1 ≤ b.n)
    (hr : ∀ r ∈ rows, r.length = b.n) :
    (b.binds rows).2 = List.replicate rows.length none
      ∧ (b.binds rows).1.builder.sb
          = b.builder.sb ++ Repeat (TrimSpace b.placeholders) rows.length
      ∧ (b.binds rows).1.builder.args = b.builder.args ++ rows.flatten := by
  induction rows generalizing b with
  | nil => simp [BulkBuilder.binds, Repeat]
  | cons r rs ih =>
    have hlen : r.length = b.n := hr r (List.mem_cons_self _ _)
    have hb : b.Bind r
        = ({ b with builder := b.builder.AppendNoSpace b.placeholders r }, none) := by
      unfold BulkBuilder.Bind
      rw [if_neg (by omega), if_neg (by simp [hlen])]
    have h := ih { b with builder := b.builder.AppendNoSpace b.placeholders r } hn
      (fun x hx => hr x (List.mem_cons_of_mem _ hx))
    simp only [BulkBuilder.binds, hb]
    refine ⟨?_, ?_, ?_⟩
    · rw [h.1]
      rfl
    · rw [h.2.1, appendNoSpace_sb]
      simp [Repeat, List.replicate_succ]
    · rw [h.2.2, appendNoSpace_args]
      simp

theorem not_space_suffix_concat_comma (l : List Char) : ¬ " ".toList <:+ l ++ [','] := by
  rintro ⟨t, ht⟩
  have h := congrArg List.getLast? ht
  simp at h

/-- C2: for a bulk builder constructed from `q` with row arity `n`, configured
placeholder `p` and `pre` the trimmed template without its trailing marker,
trimmed again: `m >= 1` `Bind` calls with rows of length `n` all succeed, and
`Build` then returns the text `pre`, a space, and `m` copies of the group
`(p,...,p)` joined by commas, with the rows concatenated as arguments. -/
theorem C2_bulk_build_text_and_args {α : Type} (maxCap : Nat) (q : List Char) (opts : List Opt)
    (b : BulkBuilder α) (h : NewBulkBuilder maxCap q opts = .ok b)
    (rows : List (List α)) (hm : 1 ≤ rows.length) (hr : ∀ r ∈ rows, r.length = b.n) :
    TrimSuffix (TrimSpace q) (configuredMarker opts) ++ configuredMarker opts = TrimSpace q
      ∧ (b.binds rows).2 = List.replicate rows.length none
      ∧ (b.binds rows).1.Build
          = (TrimSpace (TrimSuffix (TrimSpace q) (configuredMarker opts)) ++ " ".toList
              ++ ",".toList.intercalate
                  (List.replicate rows.length (rowGroup (configuredPlaceholder opts) b.n)),
             rows.flatten) := by
  obtain ⟨hsb, hargs, hph, hn⟩ := newBulkBuilder_fields q opts b h
  obtain ⟨he, hs, ha⟩ := binds_full_rows rows b hn hr
  refine ⟨?_, he, ?_⟩
  · obtain ⟨t, ht⟩ := ((newBulkBuilder_ok_iff (α := α) maxCap q opts).1 ⟨b, h⟩).1
    rw [← ht, trimSuffix_append]
  · obtain ⟨k, hk⟩ : ∃ k, rows.length = k + 1 := ⟨rows.length - 1, by omega⟩
    rw [hph, trimSpace_group, hsb] at hs
    rw [hargs] at ha
    have e1 : [','] = ",".toList := rfl
    rw [hk, repeat_append_sep] at hs
    unfold BulkBuilder.Build Builder.Query Builder.Args
    rw [hs, ha, hk]
    have e2 : ∀ x y z : List Char, x ++ (y ++ z) = (x ++ y) ++ z := fun x y z => by simp
    rw [e2, trimSuffix_of_not_suffix _ _ (not_space_suffix_concat_comma _), e1,
      trimSuffix_append]
    rfl

/-- C2 at the template and the two rows of `TestBulkBuilder_Build`: the text is
`INSERT INTO tbl_name (a,b,c) VALUES (?,?,?),(?,?,?)`. -/
theorem C2_bulk_build_text_and_args_witness :
    (NewBulkBuilder maxCap64 testTemplate [] = .ok testBulkBuilder)
      ∧ (testBulkBuilder.binds
          [[.str "a1".toList, .str "b1".toList, .str "c1".toList],
           [.str "a2".toList, .str "b2".toList, .str "c2".toList]]).1.Build
        = ("INSERT INTO tbl_name (a,b,c) VALUES (?,?,?),(?,?,?)".toList,
           [.str "a1".toList, .str "b1".toList, .str "c1".toList,
            .str "a2".toList, .str "b2".toList, .str "c2".toList])
      ∧ (TrimSuffix (TrimSpace testTemplate) (configuredMarker []) ++ configuredMarker []
            = TrimSpace testTemplate
        ∧ (testBulkBuilder.binds
            [[.str "a1".toList, .str "b1".toList, .str "c1".toList],
             [.str "a2".toList, .str "b2".toList, .str "c2".toList]]).2
            = List.replicate 2 none
        ∧ (testBulkBuilder.binds
            [[.str "a1".toList, .str "b1".toList, .str "c1".toList],
             [.str "a2".toList, .str "b2".toList, .str "c2".toList]]).1.Build
          = (TrimSpace (TrimSuffix (TrimSpace testTemplate) (configuredMarker [])) ++ " ".toList
              ++ ",".toList.intercalate
                  (List.replicate 2 (rowGroup (configuredPlaceholder []) testBulkBuilder.n)),
             [[Value.str "a1".toList, .str "b1".toList, .str "c1".toList],
              [.str "a2".toList, .str "b2".toList, .str "c2".toList]].flatten)) :=
  ⟨rfl, by decide,
    C2_bulk_build_text_and_args maxCap64 testTemplate [] testBulkBuilder rfl
      [[.str "a1".toList, .str "b1".toList, .str "c1".toList],
       [.str "a2".toList, .str "b2".toList, .str "c2".toList]] (by decide) (by decide)⟩

/-! ## Builder: spaces at the ends of the built text -/

theorem trimSpace_eq_nil_iff (s : List Char) :
    TrimSpace s = [] ↔ ∀ c ∈ s, isSpace c = true := by
  unfold TrimSpace
  rw [List.rdropWhile_eq_nil_iff]
  constructor
  · intro h
    rw [← List.dropWhile_eq_nil_iff]
    by_contra hne
    have h1 := List.head_dropWhile_not isSpace s hne
    rw [h _ (List.head_mem hne)] at h1
    exact Bool.noConfusion h1
  · intro h x hx
    exact h x ((List.dropWhile_sublist isSpace).subset hx)

theorem trimSpace_head_not_space (s : List Char) (c : Char)
    (h : (TrimSpace s).head? = some c) : isSpace c = false := by
  obtain ⟨t, ht⟩ : ∃ t, TrimSpace s = c :: t := by
    cases hs : TrimSpace s with
    | nil => rw [hs] at h; simp at h
    | cons x t =>
      rw [hs] at h
      simp at h
      exact ⟨t, by rw [h]⟩
  obtain ⟨u, hu⟩ : TrimSpace s <+: s.dropWhile isSpace :=
    List.rdropWhile_prefix isSpace (s.dropWhile isSpace)
  rw [ht] at hu
  have hne : s.dropWhile isSpace ≠ [] := by
    rw [← hu]
    simp
  have h1 := List.head_dropWhile_not isSpace s hne
  have h2 : (s.dropWhile isSpace).head hne = c := by
    simp [← hu]
  rw [h2] at h1
  simpa using h1

theorem trimSpace_last_not_space (s : List Char) (c : Char)
    (h : (TrimSpace s).getLast? = some c) : isSpace c = false := by
  have hne : TrimSpace s ≠ [] := by
    intro h0
    rw [h0] at h
    simp at h
  have h1 := List.rdropWhile_last_not isSpace (s.dropWhile isSpace) hne
  rw [List.getLast?_eq_getLast _ hne] at h
  have h2 : (TrimSpace s).getLast hne = c := Option.some.inj h
  have h3 : (List.rdropWhile isSpace (s.dropWhile isSpace)).getLast hne = c := h2
  rw [h3] at h1
  simpa using h1

theorem space_shift {α : Type} (mid : List (List Char × List α)) :
    ' ' :: (mid.map (fun f => TrimSpace f.1 ++ [' '])).flatten
      = (mid.map (fun f => ' ' :: TrimSpace f.1)).flatten ++ [' '] := by
  induction mid with
  | nil => rfl
  | cons g gs ih =>
    simp only [List.map_cons, List.flatten_cons, List.cons_append, List.append_assoc]
    rw [← ih]
    simp

/-- The text built from a first fragment, fragments in the middle and a last
fragment: a space follows the first trimmed fragment and a space precedes the
last one. -/
theorem appends_query_ends {α : Type} (f l : List Char × List α)
    (mid : List (List Char × List α)) :
    ∃ m m2 : List Char,
      ((Builder.zero : Builder α).appends (f :: (mid ++ [l]))).Query
          = TrimSpace f.1 ++ (' ' :: m) ++ TrimSpace l.1
        ∧ ((Builder.zero : Builder α).appends (f :: (mid ++ [l]))).Query
          = TrimSpace f.1 ++ (m2 ++ [' ']) ++ TrimSpace l.1 := by
  refine ⟨(mid.map (fun f => TrimSpace f.1 ++ [' '])).flatten,
    (mid.map (fun f => ' ' :: TrimSpace f.1)).flatten, ?_⟩
  rw [← space_shift, and_self]
  have h1 := appends_sb (f :: (mid ++ [l])) (Builder.zero : Builder α)
  unfold Builder.Query
  rw [h1]
  have e : (Builder.zero : Builder α).sb
        ++ ((f :: (mid ++ [l])).map (fun f => TrimSpace f.1 ++ [' '])).flatten
      = (TrimSpace f.1 ++ (' ' :: (mid.map (fun f => TrimSpace f.1 ++ [' '])).flatten)
          ++ TrimSpace l.1) ++ " ".toList := by
    simp [Builder.zero]
  rw [e, trimSuffix_append]

/-- C7, a sequence on which it fails: `Append("a")` then `Append("")` build
`"a "`, which ends with a space, and `Append("")` then `Append("a")` build
`" a"`, which starts with one. -/
theorem C7_counterexample :
    ((Builder.zero : Builder Value).appends [("a".toList, []), ("".toList, [])]).Build.1
        = "a ".toList
      ∧ ((Builder.zero : Builder Value).appends
          [("a".toList, []), ("".toList, [])]).Build.1.getLast? = some ' '
      ∧ ((Builder.zero : Builder Value).appends [("".toList, []), ("a".toList, [])]).Build.1
        = " a".toList
      ∧ ((Builder.zero : Builder Value).appends
          [("".toList, []), ("a".toList, [])]).Build.1.head? = some ' ' := by
  decide

/-- C7, amended: for every sequence of `Append` calls on an empty `Builder`, the
built text has neither a leading nor a trailing space character exactly when
the sequence has at most one fragment or both its first and its last fragment
contain a character that is not white space. -/
theorem C7_no_space_at_ends_iff {α : Type} (frags : List (List Char × List α)) :
    (((Builder.zero : Builder α).appends frags).Build.1.head? ≠ some ' '
        ∧ ((Builder.zero : Builder α).appends frags).Build.1.getLast? ≠ some ' ')
      ↔ (frags.length ≤ 1
          ∨ ((∀ f, frags.head? = some f → ∃ c ∈ f.1, isSpace c = false)
            ∧ (∀ l, frags.getLast? = some l → ∃ c ∈ l.1, isSpace c = false))) := by
  have hsp : isSpace ' ' = true := by decide
  have key : ∀ s : List Char, (∃ c ∈ s, isSpace c = false) ↔ TrimSpace s ≠ [] := by
    intro s
    rw [Ne, trimSpace_eq_nil_iff]
    simp
  show ((Builder.zero : Builder α).appends frags).Query.head? ≠ some ' '
      ∧ ((Builder.zero : Builder α).appends frags).Query.getLast? ≠ some ' ' ↔ _
  rcases frags with _ | ⟨f, rest⟩
  · simp [appends_query, List.intercalate]
  · rcases List.eq_nil_or_concat rest with h0 | ⟨mid, l, hl⟩
    · subst h0
      have e : ((Builder.zero : Builder α).appends [f]).Query = TrimSpace f.1 := by
        rw [appends_query]
        simp [List.intercalate]
      rw [e]
      constructor
      · intro _
        exact Or.inl (by simp)
      · intro _
        constructor
        · intro h
          have := trimSpace_head_not_space _ _ h
          rw [hsp] at this
          exact Bool.noConfusion this
        · intro h
          have := trimSpace_last_not_space _ _ h
          rw [hsp] at this
          exact Bool.noConfusion this
    · rw [List.concat_eq_append] at hl
      subst hl
      obtain ⟨m, m2, hm, hm2⟩ := appends_query_ends f l mid
      have hlast : (f :: (mid ++ [l])).getLast? = some l := by
        rw [← List.cons_append, List.getLast?_append]
        simp
      have hlen : ¬ (f :: (mid ++ [l])).length ≤ 1 := by
        simp
      simp only [hlen, false_or, List.head?_cons, Option.some.injEq, forall_eq', hlast, key]
      constructor
      · rintro ⟨h1, h2⟩
        constructor
        · intro hf
          apply h1
          rw [hm, hf]
          rfl
        · intro hl0
          apply h2
          rw [hm2, hl0, List.append_nil, ← List.append_assoc, List.getLast?_append]
          simp
      · rintro ⟨h1, h2⟩
        constructor
        · intro h
          rw [hm] at h
          obtain ⟨c, t, hc⟩ := List.exists_cons_of_ne_nil h1
          have h3 := trimSpace_head_not_space f.1 c (by rw [hc]; rfl)
          rw [hc] at h
          simp at h
          rw [h, hsp] at h3
          exact Bool.noConfusion h3
        · intro h
          rw [hm, List.getLast?_append] at h
          cases hq : (TrimSpace l.1).getLast? with
          | none =>
            rw [List.getLast?_eq_none_iff] at hq
            exact h2 hq
          | some c =>
            rw [hq] at h
            simp at h
            have h3 := trimSpace_last_not_space l.1 c hq
            rw [h, hsp] at h3
            exact Bool.noConfusion h3


/-! ## BulkBuilder: `Build` between `Bind` calls -/

theorem bulk_exec_state {α : Type} (cs : List (BulkCall α)) (b : BulkBuilder α) :
    (b.exec cs).1 = (b.binds (BulkCall.bindRows cs)).1 := by
  induction cs generalizing b with
  | nil => rfl
  | cons c cs ih =>
    cases c with
    | bind r => exact ih (b.Bind r).1
    | build => exact ih b

theorem bulk_exec_last_build {α : Type} (cs : List (BulkCall α)) (b : BulkBuilder α) :
    (b.exec (cs ++ [.build])).2.getLast? = some (b.binds (BulkCall.bindRows cs)).1.Build := by
  induction cs generalizing b with
  | nil => rfl
  | cons c cs ih =>
    cases c with
    | bind r => exact ih (b.Bind r).1
    | build =>
      have h := ih b
      show (b.Build :: (b.exec (cs ++ [.build])).2).getLast? = _
      rw [List.getLast?_cons, h]
      rfl

/-- C11, refuted: there are no template, options and rows `r1`, `r2` for which
the final `Build` of `Bind(r1); Build(); Bind(r2); Build()` returns a text
different from the `Build` of `Bind(r1); Bind(r2); Build()`; on the template of
the tests both return `INSERT INTO tbl_name (a,b,c) VALUES (?,?,?),(?,?,?)`. -/
theorem C11_counterexample :
    (¬ ∃ (α : Type) (maxCap : Nat) (q : List Char) (opts : List Opt) (b : BulkBuilder α)
          (r1 r2 : List α),
        NewBulkBuilder maxCap q opts = .ok b
          ∧ ((b.exec [.bind r1, .build, .bind r2, .build]).2.getLast?.map Prod.fst
              ≠ (b.exec [.bind r1, .bind r2, .build]).2.getLast?.map Prod.fst))
      ∧ (testBulkBuilder.exec
            [.bind [.int 1, .int 2, .int 3], .build, .bind [.int 4, .int 5, .int 6],
              .build]).2.getLast?.map Prod.fst
          = some "INSERT INTO tbl_name (a,b,c) VALUES (?,?,?),(?,?,?)".toList
      ∧ (testBulkBuilder.exec
            [.bind [.int 1, .int 2, .int 3], .bind [.int 4, .int 5, .int 6],
              .build]).2.getLast?.map Prod.fst
          = some "INSERT INTO tbl_name (a,b,c) VALUES (?,?,?),(?,?,?)".toList := by
  refine ⟨?_, by decide, by decide⟩
  rintro ⟨α, maxCap, q, opts, b, r1, r2, -, h⟩
  apply h
  have h1 := bulk_exec_last_build [.bind r1, .build, .bind r2] b
  have h2 := bulk_exec_last_build [.bind r1, .bind r2] b
  simp only [List.cons_append, List.nil_append] at h1 h2
  rw [h1, h2]
  rfl

/-- C11, amended: `BulkBuilder.Build` leaves the state of the bulk builder as it
is, so the state after any sequence of `Bind` and `Build` calls is the state
after its `Bind` calls alone, and the final `Build` of
`Bind(r1); Build(); Bind(r2); Build()` returns the same text and arguments as
the `Build` of `Bind(r1); Bind(r2); Build()`. -/
theorem C11_build_between_binds_changes_nothing {α : Type} (b : BulkBuilder α) :
    (∀ cs : List (BulkCall α), (b.exec cs).1 = (b.binds (BulkCall.bindRows cs)).1)
      ∧ (∀ cs : List (BulkCall α),
          (b.exec (cs ++ [.build])).2.getLast?
            = some (b.binds (BulkCall.bindRows cs)).1.Build)
      ∧ ∀ r1 r2 : List α,
          (b.exec [.bind r1, .build, .bind r2, .build]).2.getLast?
            = (b.exec [.bind r1, .bind r2, .build]).2.getLast? := by
  refine ⟨fun cs => bulk_exec_state cs b, fun cs => bulk_exec_last_build cs b, fun r1 r2 => ?_⟩
  have h1 := bulk_exec_last_build [.bind r1, .build, .bind r2] b
  have h2 := bulk_exec_last_build [.bind r1, .bind r2] b
  simp only [List.cons_append, List.nil_append] at h1 h2
  rw [h1, h2]
  rfl

/-! ## Options -/

theorem applyOpts_concat (opts : List Opt) (o : Opt) :
    applyOpts (opts ++ [o]) = o (applyOpts opts) := by
  simp [applyOpts, List.foldl_append]

theorem applyOpts_specs_concat (opts : List OptSpec) (o : OptSpec) :
    applyOpts (defaults ++ (opts ++ [o]).map OptSpec.toOpt)
      = o.toOpt (applyOpts (defaults ++ opts.map OptSpec.toOpt)) := by
  rw [List.map_append, ← List.append_assoc]
  exact applyOpts_concat _ _

theorem applyOpts_specs_fields (opts : List OptSpec) :
    (applyOpts (defaults ++ opts.map OptSpec.toOpt)).marker
      = (match lastMarker opts with
          | none => "(?)".toList
          | some m => if m = [] then "(?)".toList else m)
    ∧ (applyOpts (defaults ++ opts.map OptSpec.toOpt)).placeholder
      = (match lastPlaceHolder opts with
          | none => "?".toList
          | some s => if s = [] then "?".toList else s)
    ∧ (applyOpts (defaults ++ opts.map OptSpec.toOpt)).size
      = (match lastSize opts with
          | none => 0
          | some n => if n < 0 then 0 else n) := by
  induction opts using List.reverseRecOn with
  | nil => exact ⟨rfl, rfl, rfl⟩
  | append_singleton os o ih =>
    obtain ⟨h1, h2, h3⟩ := ih
    rw [applyOpts_specs_concat]
    cases o with
    | withSize n =>
      refine ⟨?_, ?_, ?_⟩
      · simpa [OptSpec.toOpt, WithSize, lastMarker, List.filterMap_append] using h1
      · simpa [OptSpec.toOpt, WithSize, lastPlaceHolder, List.filterMap_append] using h2
      · simp [OptSpec.toOpt, WithSize, lastSize, List.filterMap_append]
    | withMarker m =>
      refine ⟨?_, ?_, ?_⟩
      · simp [OptSpec.toOpt, WithMarker, lastMarker, List.filterMap_append]
      · simpa [OptSpec.toOpt, WithMarker, lastPlaceHolder, List.filterMap_append] using h2
      · simpa [OptSpec.toOpt, WithMarker, lastSize, List.filterMap_append] using h3
    | withPlaceHolder s =>
      refine ⟨?_, ?_, ?_⟩
      · simpa [OptSpec.toOpt, WithPlaceHolder, lastMarker, List.filterMap_append] using h1
      · simp [OptSpec.toOpt, WithPlaceHolder, lastPlaceHolder, List.filterMap_append]
      · simpa [OptSpec.toOpt, WithPlaceHolder, lastSize, List.filterMap_append] using h3

/-- C12: for every list of `WithSize`, `WithMarker` and `WithPlaceHolder` options
applied after the defaults, the marker is the argument of the last `WithMarker`
with the empty string replaced by `(?)`, and `(?)` without a `WithMarker`; the
placeholder is the argument of the last `WithPlaceHolder` with the empty string
replaced by `?`, and `?` without one; the size is the argument of the last
`WithSize` with a negative value replaced by 0, and 0 without one.  So the
marker and the placeholder are never empty and the size is never negative. -/
theorem C12_last_option_per_field_decides (opts : List OptSpec) :
    (applyOpts (defaults ++ opts.map OptSpec.toOpt)).marker
        = (match lastMarker opts with
            | none => "(?)".toList
            | some m => if m = [] then "(?)".toList else m)
      ∧ (applyOpts (defaults ++ opts.map OptSpec.toOpt)).placeholder
        = (match lastPlaceHolder opts with
            | none => "?".toList
            | some s => if s = [] then "?".toList else s)
      ∧ (applyOpts (defaults ++ opts.map OptSpec.toOpt)).size
        = (match lastSize opts with
            | none => 0
            | some n => if n < 0 then 0 else n)
      ∧ (applyOpts (defaults ++ opts.map OptSpec.toOpt)).marker ≠ []
      ∧ (applyOpts (defaults ++ opts.map OptSpec.toOpt)).placeholder ≠ []
      ∧ 0 ≤ (applyOpts (defaults ++ opts.map OptSpec.toOpt)).size := by
  obtain ⟨h1, h2, h3⟩ := applyOpts_specs_fields opts
  refine ⟨h1, h2, h3, ?_, ?_, ?_⟩
  · rw [h1]
    cases lastMarker opts with
    | none => simp
    | some m =>
      by_cases hm : m = []
      · simp [hm]
      · simp [hm]
  · rw [h2]
    cases lastPlaceHolder opts with
    | none => simp
    | some s =>
      by_cases hs : s = []
      · simp [hs]
      · simp [hs]
  · rw [h3]
    cases lastSize opts with
    | none => simp
    | some n =>
      by_cases hn : n < 0
      · simp [hn]
      · simp only [hn, if_false]
        omega

/-! ## Builder: frames and growth -/

/-- C13: in every state, `AppendArgs(args...)` leaves the buffer and `Query()`
as they were and changes the argument list only by appending `args`; with no
argument the whole state, text and argument list, is unchanged. -/
theorem C13_appendArgs_changes_only_args {α : Type} (b : Builder α) (args : List α) :
    (b.AppendArgs args).Query = b.Query
      ∧ (b.AppendArgs args).sb = b.sb
      ∧ (b.AppendArgs args).Args = b.Args ++ args
      ∧ b.AppendArgs [] = b := by
  refine ⟨?_, appendArgs_sb b args, appendArgs_args b args, rfl⟩
  unfold Builder.Query
  rw [appendArgs_sb]

theorem specs_size_nonneg (specs : List OptSpec) :
    0 ≤ (applyOpts (defaults ++ specs.map OptSpec.toOpt)).size := by
  rw [(applyOpts_specs_fields specs).2.2]
  cases lastSize specs with
  | none => simp
  | some n =>
    by_cases hn : n < 0
    · simp [hn]
    · simp only [hn, if_false]
      omega

/-- C14, an option list on which it fails: `NewBuilder(WithSize(9223372036854775807))`
panics in `make` and returns no builder, so there is nothing to compare with the
zero-value `Builder`. -/
theorem C14_counterexample :
    (NewBuilder maxCap64 [WithSize 9223372036854775807] : Option (Builder Value)) = none
      ∧ ¬ capacityAllocated maxCap64 [WithSize 9223372036854775807] := by
  refine ⟨by decide, by decide⟩

/-- C14, amended: for every option list whose configured size is a capacity that
`make` allocates, `NewBuilder(opts...)` returns a builder that builds the empty
text and no arguments and on which every sequence of `Append`, `AppendNoSpace`,
`AppendArgs` and `Reset` calls yields the same `Build` result as on the
zero-value `Builder`; otherwise `NewBuilder` panics.  For options written with
the three constructors the condition is that the argument of the last
`WithSize`, if there is one and it is positive, is at most `maxCap`: the
arguments of `WithMarker` and `WithPlaceHolder` are ignored. -/
theorem C14_newBuilder_is_zero_value {α : Type} (maxCap : Nat) :
    (∀ opts : List Opt, capacityAllocated maxCap opts →
      ∃ b : Builder α, NewBuilder maxCap opts = some b
        ∧ b.Build = ([], [])
        ∧ ∀ ops : List (Op α), (b.run ops).Build = ((Builder.zero : Builder α).run ops).Build)
    ∧ (∀ opts : List Opt, ¬ capacityAllocated maxCap opts →
        (NewBuilder maxCap opts : Option (Builder α)) = none)
    ∧ (∀ specs : List OptSpec,
        capacityAllocated maxCap (specs.map OptSpec.toOpt)
          ↔ (match lastSize specs with
              | none => 0
              | some n => if n < 0 then 0 else n) ≤ (maxCap : Int))
    ∧ (∀ specs : List OptSpec, lastSize specs = none →
        (NewBuilder maxCap (specs.map OptSpec.toOpt) : Option (Builder α))
          = some Builder.zero)
    ∧ (NewBuilder maxCap64
          [WithMarker "x".toList, WithSize 10, WithPlaceHolder "$".toList, WithSize (-5),
            WithMarker "".toList] : Option (Builder Value)) = some Builder.zero := by
  have z : (Builder.zero : Builder α).Build = ([], []) := by
    simp [Builder.Build, Builder.Query, Builder.Args, Builder.zero, TrimSuffix, HasSuffix]
  have hspec : ∀ specs : List OptSpec,
      capacityAllocated maxCap (specs.map OptSpec.toOpt)
        ↔ (match lastSize specs with
            | none => 0
            | some n => if n < 0 then 0 else n) ≤ (maxCap : Int) := by
    intro specs
    unfold capacityAllocated
    rw [← (applyOpts_specs_fields specs).2.2]
    exact ⟨fun h => h.2, fun h => ⟨specs_size_nonneg specs, h⟩⟩
  refine ⟨fun opts h => ⟨Builder.zero, ?_, z, fun _ => rfl⟩, fun opts h => ?_, hspec,
    fun specs h => ?_, by decide⟩
  · rw [newBuilder_eq, if_pos h]
  · rw [newBuilder_eq, if_neg h]
  · rw [newBuilder_eq, if_pos]
    rw [hspec, h]
    exact Int.ofNat_nonneg maxCap

theorem trimSuffix_initial (s suffix : List Char) : TrimSuffix s suffix <+: s := by
  unfold TrimSuffix
  split
  · exact List.take_prefix _ _
  · exact List.prefix_refl _

theorem trimSuffix_space_mono (s t : List Char) (h : s <+: t) :
    TrimSuffix s " ".toList <+: TrimSuffix t " ".toList := by
  by_cases ht : " ".toList <:+ t
  · obtain ⟨u, hu⟩ := ht
    rw [← hu, trimSuffix_append]
    by_cases hs : " ".toList <:+ s
    · obtain ⟨v, hv⟩ := hs
      rw [← hv, trimSuffix_append]
      rw [← hu, ← hv] at h
      have h1 : v <+: v ++ " ".toList := List.prefix_append _ _
      have h2 := h1.trans h
      rcases List.prefix_concat_iff.1 (by simpa using h2) with h3 | h3
      · exfalso
        have := congrArg List.length h3
        have hl := h.length_le
        simp at this hl
        omega
      · exact h3
    · rw [trimSuffix_of_not_suffix _ _ hs]
      rw [← hu] at h
      rcases List.prefix_concat_iff.1 (by simpa using h) with h3 | h3
      · exfalso
        apply hs
        rw [h3]
        exact ⟨u, by simp⟩
      · exact h3
  · rw [trimSuffix_of_not_suffix _ _ ht]
    exact (trimSuffix_initial s _).trans h

theorem apply_sb_grows {α : Type} (b : Builder α) (o : Op α) (h : o.isAppend = true) :
    b.sb <+: (o.apply b).sb := by
  cases o with
  | append q as =>
    show _ <+: (b.Append q as).sb
    rw [append_sb, List.append_assoc]
    exact List.prefix_append _ _
  | appendNoSpace q as =>
    show _ <+: (b.AppendNoSpace q as).sb
    rw [appendNoSpace_sb]
    exact List.prefix_append _ _
  | appendArgs as =>
    show _ <+: (b.AppendArgs as).sb
    rw [appendArgs_sb]
  | reset => simp [Op.isAppend] at h

/-- C18: in every state and for every `Append`, `AppendNoSpace` or `AppendArgs`
call, the `Query()` text before the call is a prefix of the `Query()` text after
it, and the `Args()` list before the call is a prefix of the `Args()` list after
it. -/
theorem C18_builder_grows_monotonically {α : Type} (b : Builder α) (o : Op α)
    (h : o.isAppend = true) :
    b.Query <+: (o.apply b).Query ∧ b.Args <+: (o.apply b).Args := by
  refine ⟨trimSuffix_space_mono _ _ (apply_sb_grows b o h), ?_⟩
  show b.args <+: (o.apply b).args
  rw [apply_args b o h]
  exact List.prefix_append _ _

/-- C18 at a builder holding `a` and a space, on which `Append("")` is called:
`a` is a prefix of the new text `a` and a space. -/
theorem C18_builder_grows_monotonically_witness :
    (Op.append "".toList ([] : List Value)).isAppend = true
      ∧ ((Builder.zero.Append "a".toList [Value.int 1]).Query
            <+: ((Op.append "".toList []).apply
                  (Builder.zero.Append "a".toList [Value.int 1])).Query
          ∧ (Builder.zero.Append "a".toList [Value.int 1]).Args
            <+: ((Op.append "".toList []).apply
                  (Builder.zero.Append "a".toList [Value.int 1])).Args) :=
  ⟨rfl, C18_builder_grows_monotonically (Builder.zero.Append "a".toList [Value.int 1])
    (Op.append "".toList []) rfl⟩

/-! ## BulkBuilder: arguments and row groups -/

theorem binds_cons {α : Type} (b : BulkBuilder α) (r : List α) (rows : List (List α)) :
    b.binds (r :: rows)
      = (((b.Bind r).1.binds rows).1, (b.Bind r).2 :: ((b.Bind r).1.binds rows).2) := rfl

theorem successfulBinds_cons {α : Type} (r : List α) (e : Option Error)
    (rows : List (List α)) (errs : List (Option Error)) :
    successfulBinds (r :: rows) (e :: errs)
      = (if r.length ≠ 0 ∧ e = none then 1 else 0) + successfulBinds rows errs := by
  unfold successfulBinds
  rw [List.zip_cons_cons, List.filter_cons]
  by_cases h : r.length ≠ 0 ∧ e = none
  · have hb : (decide (r.length ≠ 0) && e.isNone) = true := by
      obtain ⟨h1, h2⟩ := h
      simp [h1, h2]
    rw [if_pos hb, if_pos h, List.length_cons, Nat.add_comm]
  · have hb : ¬ (decide (r.length ≠ 0) && e.isNone) = true := by
      intro hc
      apply h
      simp only [Bool.and_eq_true, decide_eq_true_eq, Option.isNone_iff_eq_none] at hc
      exact hc
    rw [if_neg hb, if_neg h, Nat.zero_add]

theorem bind_cases {α : Type} (b : BulkBuilder α) (r : List α) :
    ((b.Bind r).1 = b ∧ ¬ (r.length ≠ 0 ∧ (b.Bind r).2 = none))
      ∨ ((b.Bind r).1.builder = b.builder.AppendNoSpace b.placeholders r
          ∧ r.length = b.n ∧ (r.length ≠ 0 ∧ (b.Bind r).2 = none)) := by
  unfold BulkBuilder.Bind
  by_cases h0 : r.length = 0
  · left
    simp [h0]
  · by_cases hne : b.n ≠ r.length
    · left
      simp [h0, hne]
    · right
      simp only [ne_eq, not_not] at hne
      simp [h0, hne]

theorem binds_groups {α : Type} (rows : List (List α)) (b : BulkBuilder α) (hn : 1 ≤ b.n) :
    (b.binds rows).2.length = rows.length
      ∧ (b.binds rows).1.builder.sb
          = b.builder.sb
            ++ Repeat (TrimSpace b.placeholders) (successfulBinds rows (b.binds rows).2)
      ∧ (b.binds rows).1.builder.args.length
          = b.builder.args.length + b.n * successfulBinds rows (b.binds rows).2 := by
  induction rows generalizing b with
  | nil => simp [BulkBuilder.binds, successfulBinds, Repeat]
  | cons r rs ih =>
    rw [binds_cons]
    simp only [successfulBinds_cons, List.length_cons]
    have hb := bind_n b r
    obtain ⟨h1, h2, h3⟩ := ih (b.Bind r).1 (by rw [hb.1]; exact hn)
    rw [hb.2] at h2
    rw [hb.1] at h3
    refine ⟨by rw [h1], ?_, ?_⟩
    · rw [h2]
      rcases bind_cases b r with ⟨hs, hk⟩ | ⟨hs, -, hk⟩
      · rw [if_neg hk, hs, Nat.zero_add]
      · rw [if_pos hk, hs, appendNoSpace_sb, Nat.add_comm 1, Repeat, Repeat,
          List.replicate_succ, List.flatten_cons, List.append_assoc]
    · rw [h3]
      rcases bind_cases b r with ⟨hs, hk⟩ | ⟨hs, hl, hk⟩
      · rw [if_neg hk, hs, Nat.zero_add]
      · rw [if_pos hk, hs, appendNoSpace_args, List.length_append, hl, Nat.mul_add,
          Nat.mul_one, Nat.add_assoc]

/-- C15: for a successfully constructed bulk builder and every sequence of
`Bind` calls on it, succeeding or failing, with or without arguments, with `k`
the number of calls that had arguments and succeeded: the text is the text left
by the constructor followed by `k` row-placeholder groups (each with its comma),
and the argument list has `k` times the row arity elements. -/
theorem C15_args_count_matches_groups {α : Type} (maxCap : Nat) (q : List Char) (opts : List Opt)
    (b : BulkBuilder α) (h : NewBulkBuilder maxCap q opts = .ok b) (rows : List (List α)) :
    (b.binds rows).2.length = rows.length
      ∧ (b.binds rows).1.builder.sb
          = b.builder.sb
            ++ Repeat (rowGroup (configuredPlaceholder opts) b.n ++ [','])
                (successfulBinds rows (b.binds rows).2)
      ∧ (b.binds rows).1.builder.Args.length
          = b.n * successfulBinds rows (b.binds rows).2
      ∧ (b.binds rows).1.Build.2.length = b.n * successfulBinds rows (b.binds rows).2 := by
  obtain ⟨-, hargs, hph, hn⟩ := newBulkBuilder_fields q opts b h
  obtain ⟨h1, h2, h3⟩ := binds_groups rows b hn
  rw [hph, trimSpace_group] at h2
  rw [hargs] at h3
  simp only [List.length_nil, Nat.zero_add] at h3
  exact ⟨h1, h2, h3, h3⟩

/-- C15 at the builder of the tests with a row of four values (failing), a row
of none, and two rows of three values: two groups and six arguments. -/
theorem C15_args_count_matches_groups_witness :
    (NewBulkBuilder maxCap64 testTemplate [] = .ok testBulkBuilder)
      ∧ successfulBinds
          [[Value.int 1, .int 2, .int 3, .int 4], [], [.int 1, .int 2, .int 3],
            [.int 4, .int 5, .int 6]]
          (testBulkBuilder.binds
            [[Value.int 1, .int 2, .int 3, .int 4], [], [.int 1, .int 2, .int 3],
              [.int 4, .int 5, .int 6]]).2 = 2
      ∧ ((testBulkBuilder.binds
            [[Value.int 1, .int 2, .int 3, .int 4], [], [.int 1, .int 2, .int 3],
              [.int 4, .int 5, .int 6]]).2.length
          = [[Value.int 1, .int 2, .int 3, .int 4], [], [.int 1, .int 2, .int 3],
              [.int 4, .int 5, .int 6]].length
        ∧ (testBulkBuilder.binds
            [[Value.int 1, .int 2, .int 3, .int 4], [], [.int 1, .int 2, .int 3],
              [.int 4, .int 5, .int 6]]).1.builder.sb
          = testBulkBuilder.builder.sb
            ++ Repeat (rowGroup (configuredPlaceholder []) testBulkBuilder.n ++ [','])
                (successfulBinds
                  [[Value.int 1, .int 2, .int 3, .int 4], [], [.int 1, .int 2, .int 3],
                    [.int 4, .int 5, .int 6]]
                  (testBulkBuilder.binds
                    [[Value.int 1, .int 2, .int 3, .int 4], [], [.int 1, .int 2, .int 3],
                      [.int 4, .int 5, .int 6]]).2)
        ∧ (testBulkBuilder.binds
            [[Value.int 1, .int 2, .int 3, .int 4], [], [.int 1, .int 2, .int 3],
              [.int 4, .int 5, .int 6]]).1.builder.Args.length
          = testBulkBuilder.n
            * successfulBinds
                [[Value.int 1, .int 2, .int 3, .int 4], [], [.int 1, .int 2, .int 3],
                  [.int 4, .int 5, .int 6]]
                (testBulkBuilder.binds
                  [[Value.int 1, .int 2, .int 3, .int 4], [], [.int 1, .int 2, .int 3],
                    [.int 4, .int 5, .int 6]]).2
        ∧ (testBulkBuilder.binds
            [[Value.int 1, .int 2, .int 3, .int 4], [], [.int 1, .int 2, .int 3],
              [.int 4, .int 5, .int 6]]).1.Build.2.length
          = testBulkBuilder.n
            * successfulBinds
                [[Value.int 1, .int 2, .int 3, .int 4], [], [.int 1, .int 2, .int 3],
                  [.int 4, .int 5, .int 6]]
                (testBulkBuilder.binds
                  [[Value.int 1, .int 2, .int 3, .int 4], [], [.int 1, .int 2, .int 3],
                    [.int 4, .int 5, .int 6]]).2) :=
  ⟨rfl, by decide,
    C15_args_count_matches_groups maxCap64 testTemplate [] testBulkBuilder rfl
      [[Value.int 1, .int 2, .int 3, .int 4], [], [.int 1, .int 2, .int 3],
        [.int 4, .int 5, .int 6]]⟩

/-! ## BulkBuilder: `Build` before any row -/

/-- C16, a template on which it fails: for `INSERT INTO t VALUES (1,2),(?)` the
constructor succeeds and the template without its marker is
`INSERT INTO t VALUES (1,2),`, but `Build` without any `Bind` returns
`INSERT INTO t VALUES (1,2)`: the comma of the template is stripped. -/
theorem C16_counterexample :
    (∃ b : BulkBuilder Value,
        NewBulkBuilder maxCap64 "INSERT INTO t VALUES (1,2),(?)".toList [] = .ok b
          ∧ b.Build = ("INSERT INTO t VALUES (1,2)".toList, []))
      ∧ TrimSpace (TrimSuffix (TrimSpace "INSERT INTO t VALUES (1,2),(?)".toList)
            (configuredMarker []))
          = "INSERT INTO t VALUES (1,2),".toList := by
  refine ⟨⟨_, rfl, ?_⟩, ?_⟩
  · decide
  · decide

/-- C16, amended: for a successfully constructed bulk builder on which no `Bind`
with arguments has succeeded, if the whitespace-trimmed template without its
trailing marker, trimmed again, does not end with a comma, then `Build` returns
exactly that text and an empty argument list. -/
theorem C16_build_without_rows_returns_prefix {α : Type} (maxCap : Nat) (q : List Char) (opts : List Opt)
    (b : BulkBuilder α) (h : NewBulkBuilder maxCap q opts = .ok b) (rows : List (List α))
    (hk : successfulBinds rows (b.binds rows).2 = 0)
    (hc : ¬ ",".toList <:+ TrimSpace (TrimSuffix (TrimSpace q) (configuredMarker opts))) :
    (b.binds rows).1.Build
      = (TrimSpace (TrimSuffix (TrimSpace q) (configuredMarker opts)), []) := by
  obtain ⟨hsb, hargs, -, hn⟩ := newBulkBuilder_fields q opts b h
  obtain ⟨-, h2, h3⟩ := binds_groups rows b hn
  rw [hk] at h2 h3
  rw [hargs] at h3
  simp only [Repeat, List.replicate_zero, List.flatten_nil, List.append_nil] at h2
  simp only [List.length_nil, Nat.mul_zero, Nat.add_zero] at h3
  unfold BulkBuilder.Build Builder.Query Builder.Args
  rw [h2, hsb, List.length_eq_zero.1 h3]
  have e : [' '] = " ".toList := rfl
  rw [e, trimSuffix_append, trimSuffix_of_not_suffix _ _ hc]

/-- C16 at the template of the tests, after a `Bind` without arguments and a
failing `Bind` of four values: `Build` returns
`INSERT INTO tbl_name (a,b,c) VALUES` and no argument. -/
theorem C16_build_without_rows_returns_prefix_witness :
    (NewBulkBuilder maxCap64 testTemplate [] = .ok testBulkBuilder)
      ∧ successfulBinds [[], [Value.int 1, .int 2, .int 3, .int 4]]
          (testBulkBuilder.binds [[], [Value.int 1, .int 2, .int 3, .int 4]]).2 = 0
      ∧ (¬ ",".toList <:+ TrimSpace (TrimSuffix (TrimSpace testTemplate) (configuredMarker [])))
      ∧ TrimSpace (TrimSuffix (TrimSpace testTemplate) (configuredMarker []))
          = "INSERT INTO tbl_name (a,b,c) VALUES".toList
      ∧ (testBulkBuilder.binds [[], [Value.int 1, .int 2, .int 3, .int 4]]).1.Build
          = (TrimSpace (TrimSuffix (TrimSpace testTemplate) (configuredMarker [])), []) :=
  ⟨rfl, by decide, by decide, by decide,
    C16_build_without_rows_returns_prefix maxCap64 testTemplate [] testBulkBuilder rfl
      [[], [Value.int 1, .int 2, .int 3, .int 4]] (by decide) (by decide)⟩

/-! ## BulkBuilder: white space around the template -/

theorem dropWhile_space_append (w s : List Char) (hw : ∀ c ∈ w, isSpace c = true) :
    (w ++ s).dropWhile isSpace = s.dropWhile isSpace := by
  induction w with
  | nil => rfl
  | cons c cs ih =>
    rw [List.cons_append, List.dropWhile_cons, if_pos (hw c (List.mem_cons_self _ _))]
    exact ih (fun x hx => hw x (List.mem_cons_of_mem _ hx))

theorem rdropWhile_append_space (s w : List Char) (hw : ∀ c ∈ w, isSpace c = true) :
    (s ++ w).rdropWhile isSpace = s.rdropWhile isSpace := by
  unfold List.rdropWhile
  rw [List.reverse_append, dropWhile_space_append _ _ (fun c hc => hw c (List.mem_reverse.1 hc))]

theorem trimSpace_append_space (s w : List Char) (hw : ∀ c ∈ w, isSpace c = true) :
    TrimSpace (s ++ w) = TrimSpace s := by
  unfold TrimSpace
  induction s with
  | nil =>
    have h : w.dropWhile isSpace = [] := List.dropWhile_eq_nil_iff.2 hw
    simp [h]
  | cons c cs ih =>
    by_cases hc : isSpace c = true
    · rw [List.cons_append, List.dropWhile_cons, if_pos hc, List.dropWhile_cons, if_pos hc]
      exact ih
    · rw [List.cons_append, List.dropWhile_cons, if_neg hc, List.dropWhile_cons, if_neg hc,
        ← List.cons_append]
      exact rdropWhile_append_space _ _ hw

theorem trimSpace_surrounded (w1 q w2 : List Char) (h1 : ∀ c ∈ w1, isSpace c = true)
    (h2 : ∀ c ∈ w2, isSpace c = true) : TrimSpace (w1 ++ q ++ w2) = TrimSpace q := by
  rw [trimSpace_append_space _ _ h2]
  unfold TrimSpace
  rw [dropWhile_space_append _ _ h1]

theorem newBulkBuilder_of_trimSpace_eq {α : Type} (maxCap : Nat) (q1 q2 : List Char) (opts : List Opt)
    (h : TrimSpace q1 = TrimSpace q2) :
    (NewBulkBuilder maxCap q1 opts : Result (BulkBuilder α)) = NewBulkBuilder maxCap q2 opts := by
  unfold NewBulkBuilder
  simp only [h]

/-- C19: for every template `q`, strings `w1` and `w2` made of white space only
and every option list, `NewBulkBuilder(w1 ++ q ++ w2)` returns what
`NewBulkBuilder(q)` returns: one fails exactly when the other does, and when
they succeed the two builders have the same row arity and row-placeholder group
and, after any same sequence of `Bind` calls, return the same errors and the
same `Build` result. -/
theorem C19_newBulkBuilder_ignores_surrounding_space {α : Type} (maxCap : Nat) (q w1 w2 : List Char)
    (opts : List Opt) (h1 : ∀ c ∈ w1, isSpace c = true) (h2 : ∀ c ∈ w2, isSpace c = true) :
    ((∃ e, (NewBulkBuilder maxCap (w1 ++ q ++ w2) opts : Result (BulkBuilder α)) = .error e)
        ↔ (∃ e, (NewBulkBuilder maxCap q opts : Result (BulkBuilder α)) = .error e))
      ∧ ∀ b1 b2 : BulkBuilder α,
          NewBulkBuilder maxCap (w1 ++ q ++ w2) opts = .ok b1 → NewBulkBuilder maxCap q opts = .ok b2 →
            b1.n = b2.n ∧ b1.placeholders = b2.placeholders
              ∧ ∀ rows : List (List α),
                  (b1.binds rows).2 = (b2.binds rows).2
                    ∧ (b1.binds rows).1.Build = (b2.binds rows).1.Build := by
  have e := newBulkBuilder_of_trimSpace_eq (α := α) maxCap (w1 ++ q ++ w2) q opts
    (trimSpace_surrounded w1 q w2 h1 h2)
  rw [e]
  refine ⟨Iff.rfl, fun b1 b2 hb1 hb2 => ?_⟩
  rw [hb1] at hb2
  cases hb2
  exact ⟨rfl, rfl, fun _ => ⟨rfl, rfl⟩⟩

/-- C19 at the template of the tests between a tab with a space and a line
break: the constructor returns the builder of the bare template. -/
theorem C19_newBulkBuilder_ignores_surrounding_space_witness :
    (∀ c ∈ "\t ".toList, isSpace c = true) ∧ (∀ c ∈ "\n".toList, isSpace c = true)
      ∧ (NewBulkBuilder maxCap64 ("\t ".toList ++ testTemplate ++ "\n".toList) []
          = .ok testBulkBuilder)
      ∧ (((∃ e, (NewBulkBuilder maxCap64 ("\t ".toList ++ testTemplate ++ "\n".toList) []
              : Result (BulkBuilder Value)) = .error e)
          ↔ (∃ e, (NewBulkBuilder maxCap64 testTemplate [] : Result (BulkBuilder Value))
              = .error e))
        ∧ ∀ b1 b2 : BulkBuilder Value,
            NewBulkBuilder maxCap64 ("\t ".toList ++ testTemplate ++ "\n".toList) [] = .ok b1 →
              NewBulkBuilder maxCap64 testTemplate [] = .ok b2 →
              b1.n = b2.n ∧ b1.placeholders = b2.placeholders
                ∧ ∀ rows : List (List Value),
                    (b1.binds rows).2 = (b2.binds rows).2
                      ∧ (b1.binds rows).1.Build = (b2.binds rows).1.Build) :=
  ⟨by decide, by decide, rfl,
    C19_newBulkBuilder_ignores_surrounding_space maxCap64 testTemplate "\t ".toList "\n".toList []
      (by decide) (by decide)⟩

/-! ## BulkBuilder: the positions of the marker -/

theorem hasPrefix_nil (m : List Char) (hm : m ≠ []) : HasPrefix [] m = false := by
  cases m with
  | nil => exact absurd rfl hm
  | cons c cs => simp [HasPrefix]

theorem countFrom_zero_cons (m : List Char) (c : Char) (cs : List Char) :
    countFrom m 0 (c :: cs)
      = if HasPrefix (c :: cs) m then 1 + countFrom m (m.length - 1) cs
        else countFrom m 0 cs := by
  rw [countFrom]

theorem countFrom_succ_cons (m : List Char) (k : Nat) (c : Char) (cs : List Char) :
    countFrom m (k + 1) (c :: cs) = countFrom m k cs := by
  rw [countFrom]

/-- An occurrence at or after the position where the search resumes is
counted. -/
theorem countFrom_pos (m : List Char) (hm : m ≠ []) (s : List Char) :
    ∀ k p : Nat, k ≤ p → HasPrefix (s.drop p) m = true → 1 ≤ countFrom m k s := by
  induction s with
  | nil =>
    intro k p _ h
    rw [List.drop_nil, hasPrefix_nil m hm] at h
    exact Bool.noConfusion h
  | cons c cs ih =>
    intro k p hkp h
    cases k with
    | zero =>
      rw [countFrom_zero_cons]
      by_cases h0 : HasPrefix (c :: cs) m = true
      · rw [if_pos h0]
        omega
      · rw [if_neg h0]
        cases p with
        | zero => exact absurd h h0
        | succ p0 => exact ih 0 p0 (Nat.zero_le _) h
    | succ k0 =>
      rw [countFrom_succ_cons]
      cases p with
      | zero => omega
      | succ p0 => exact ih k0 p0 (by omega) h

/-- Two occurrences that do not overlap are both counted. -/
theorem countFrom_two (m : List Char) (hm : m ≠ []) (s : List Char) :
    ∀ k p p2 : Nat, k ≤ p → p + m.length ≤ p2 → HasPrefix (s.drop p) m = true →
      HasPrefix (s.drop p2) m = true → 2 ≤ countFrom m k s := by
  have hlen : 1 ≤ m.length := by
    cases m with
    | nil => exact absurd rfl hm
    | cons c cs => simp
  induction s with
  | nil =>
    intro k p p2 _ _ h _
    rw [List.drop_nil, hasPrefix_nil m hm] at h
    exact Bool.noConfusion h
  | cons c cs ih =>
    intro k p p2 hkp hpp h h2
    cases p2 with
    | zero => omega
    | succ q2 =>
      cases k with
      | zero =>
        rw [countFrom_zero_cons]
        by_cases h0 : HasPrefix (c :: cs) m = true
        · rw [if_pos h0]
          have := countFrom_pos m hm cs (m.length - 1) q2 (by omega) h2
          omega
        · rw [if_neg h0]
          cases p with
          | zero => exact absurd h h0
          | succ p0 => exact ih 0 p0 q2 (Nat.zero_le _) (by omega) h h2
      | succ k0 =>
        rw [countFrom_succ_cons]
        cases p with
        | zero => omega
        | succ p0 => exact ih k0 p0 q2 (by omega) (by omega) h h2

theorem mem_positions (s m : List Char) (p : Nat) :
    p ∈ positions s m ↔ p ≤ s.length ∧ HasPrefix (s.drop p) m = true := by
  unfold positions
  rw [List.mem_filter, List.mem_range]
  constructor
  · rintro ⟨h1, h2⟩
    exact ⟨by omega, h2⟩
  · rintro ⟨h1, h2⟩
    exact ⟨by omega, h2⟩

theorem hasPrefix_drop_of_suffix (s m : List Char) (h : m <:+ s) :
    HasPrefix (s.drop (s.length - m.length)) m = true := by
  obtain ⟨t, rfl⟩ := h
  rw [hasPrefix_iff]
  simp

/-- When `Count` finds one occurrence of a marker that is a suffix, every
position of the marker is within the length of the marker before the suffix. -/
theorem positions_near_suffix (s m : List Char) (hm : m ≠ []) (hs : m <:+ s)
    (hc : Count s m = 1) (p : Nat) (hp : p ∈ positions s m) :
    p ≤ s.length - m.length ∧ s.length - m.length < p + m.length := by
  rw [mem_positions] at hp
  obtain ⟨hpl, hocc⟩ := hp
  have hfit : p + m.length ≤ s.length := by
    have h1 := ((hasPrefix_iff _ _).1 hocc).length_le
    rw [List.length_drop] at h1
    omega
  refine ⟨by omega, ?_⟩
  by_contra hnot
  have h2 := countFrom_two m hm s 0 p (s.length - m.length) (Nat.zero_le _) (by omega) hocc
    (hasPrefix_drop_of_suffix s m hs)
  unfold Count at hc
  rw [if_neg hm] at hc
  omega

/-- Two occurrences at a distance smaller than the length make the string
overlap itself. -/
theorem selfOverlaps_of_two (s m : List Char) (p d : Nat) (hd : 0 < d) (hdm : d < m.length)
    (h1 : HasPrefix (s.drop p) m = true) (h2 : s.drop (p + d) = m) :
    selfOverlaps m = true := by
  obtain ⟨t, ht⟩ := (hasPrefix_iff _ _).1 h1
  have e : m.drop d ++ t = m := by
    rw [← List.drop_append_of_le_length (Nat.le_of_lt hdm), ht, List.drop_drop]
    exact h2
  unfold selfOverlaps
  rw [List.any_eq_true]
  refine ⟨m.length - d, by rw [List.mem_range]; omega, ?_⟩
  have hk : 0 < m.length - d := by omega
  have hsub : m.length - (m.length - d) = d := by omega
  simp only [hk, decide_True, Bool.true_and, beq_iff_eq, hsub]
  have h3 : List.take (m.length - d) (m.drop d ++ t) = m.drop d :=
    List.take_left' (by rw [List.length_drop])
  rw [e] at h3
  exact h3

theorem eq_singleton_of_nodup {l : List Nat} {a : Nat} (hn : l.Nodup)
    (h : ∀ x, x ∈ l ↔ x = a) : l = [a] := by
  match l, hn, h with
  | [], _, h => exact absurd ((h a).2 rfl) (List.not_mem_nil a)
  | [x], _, h =>
    rw [(h x).1 (List.mem_singleton_self x)]
  | x :: y :: t, hn, h =>
    exfalso
    have hx := (h x).1 (List.mem_cons_self _ _)
    have hy := (h y).1 (List.mem_cons_of_mem _ (List.mem_cons_self _ _))
    rw [List.nodup_cons] at hn
    apply hn.1
    rw [hx, ← hy]
    exact List.mem_cons_self _ _

theorem positions_eq_singleton (s m : List Char) (hm : m ≠ []) (hs : m <:+ s)
    (hc : Count s m = 1) (ho : selfOverlaps m = false) :
    positions s m = [s.length - m.length] := by
  apply eq_singleton_of_nodup
  · exact List.Nodup.filter _ (List.nodup_range _)
  · intro p
    constructor
    · intro hp
      obtain ⟨h1, h2⟩ := positions_near_suffix s m hm hs hc p hp
      by_contra hne
      have hocc := ((mem_positions s m p).1 hp).2
      have hsuf : s.drop (p + (s.length - m.length - p)) = m := by
        obtain ⟨t, rfl⟩ := hs
        have : p + ((t ++ m).length - m.length - p) = t.length := by
          simp only [List.length_append] at h1 ⊢
          omega
        rw [this]
        simp
      have := selfOverlaps_of_two s m p (s.length - m.length - p) (by omega) (by omega)
        hocc hsuf
      rw [ho] at this
      exact Bool.noConfusion this
    · intro hp
      rw [hp, mem_positions]
      exact ⟨by omega, hasPrefix_drop_of_suffix s m hs⟩

theorem specs_marker_ne_nil (specs : List OptSpec) :
    configuredMarker (specs.map OptSpec.toOpt) ≠ [] := by
  unfold configuredMarker
  rw [(applyOpts_specs_fields specs).1]
  cases lastMarker specs with
  | none => simp
  | some m =>
    by_cases hm : m = []
    · simp [hm]
    · simp [hm]

theorem specs_marker_default (specs : List OptSpec)
    (h : lastMarker specs = none ∨ lastMarker specs = some []) :
    configuredMarker (specs.map OptSpec.toOpt) = "(?)".toList := by
  unfold configuredMarker
  rw [(applyOpts_specs_fields specs).1]
  rcases h with h | h
  · rw [h]
  · rw [h]
    simp

/-- C17, a template on which it fails: with `WithMarker("?,?")` the constructor
accepts `INSERT INTO t VALUES ?,?,?`, where `Count` finds one occurrence of the
marker, although the marker occurs at two overlapping positions, 21 and 23. -/
theorem C17_counterexample :
    (∃ b : BulkBuilder Value,
        NewBulkBuilder maxCap64 "INSERT INTO t VALUES ?,?,?".toList
          ([OptSpec.withMarker "?,?".toList].map OptSpec.toOpt) = .ok b)
      ∧ configuredMarker ([OptSpec.withMarker "?,?".toList].map OptSpec.toOpt) = "?,?".toList
      ∧ Count (TrimSpace "INSERT INTO t VALUES ?,?,?".toList) "?,?".toList = 1
      ∧ positions (TrimSpace "INSERT INTO t VALUES ?,?,?".toList) "?,?".toList = [21, 23] := by
  refine ⟨⟨_, rfl⟩, ?_, ?_, ?_⟩
  · decide
  · decide
  · decide

/-- C17, amended: for every template and every marker configured by default or
with `WithMarker`, if `NewBulkBuilder` succeeds then the marker is not empty, it
is the suffix of the whitespace-trimmed template, `Count` finds one occurrence
of it, and every position at which it occurs overlaps the suffix (it is less
than the length of the marker before the position of the suffix).  When the
marker cannot overlap itself, and so for the default marker `(?)`, it occurs at
exactly one position, that of the suffix. -/
theorem C17_marker_occurs_only_overlapping_suffix {α : Type} (maxCap : Nat) (q : List Char)
    (specs : List OptSpec) (b : BulkBuilder α)
    (h : NewBulkBuilder maxCap q (specs.map OptSpec.toOpt) = .ok b) :
    configuredMarker (specs.map OptSpec.toOpt) ≠ []
      ∧ configuredMarker (specs.map OptSpec.toOpt) <:+ TrimSpace q
      ∧ Count (TrimSpace q) (configuredMarker (specs.map OptSpec.toOpt)) = 1
      ∧ (TrimSpace q).length - (configuredMarker (specs.map OptSpec.toOpt)).length
          ∈ positions (TrimSpace q) (configuredMarker (specs.map OptSpec.toOpt))
      ∧ (∀ p ∈ positions (TrimSpace q) (configuredMarker (specs.map OptSpec.toOpt)),
          p ≤ (TrimSpace q).length - (configuredMarker (specs.map OptSpec.toOpt)).length
            ∧ (TrimSpace q).length - (configuredMarker (specs.map OptSpec.toOpt)).length
                < p + (configuredMarker (specs.map OptSpec.toOpt)).length)
      ∧ (selfOverlaps (configuredMarker (specs.map OptSpec.toOpt)) = false →
          positions (TrimSpace q) (configuredMarker (specs.map OptSpec.toOpt))
            = [(TrimSpace q).length - (configuredMarker (specs.map OptSpec.toOpt)).length])
      ∧ (lastMarker specs = none ∨ lastMarker specs = some [] →
          positions (TrimSpace q) "(?)".toList = [(TrimSpace q).length - 3]) := by
  have hm := specs_marker_ne_nil specs
  obtain ⟨hs, hc, -⟩ := (newBulkBuilder_ok_iff (α := α) maxCap q (specs.map OptSpec.toOpt)).1 ⟨b, h⟩
  refine ⟨hm, hs, hc, ?_, positions_near_suffix _ _ hm hs hc,
    positions_eq_singleton _ _ hm hs hc, fun hd => ?_⟩
  · rw [mem_positions]
    exact ⟨by omega, hasPrefix_drop_of_suffix _ _ hs⟩
  · have e := specs_marker_default specs hd
    rw [e] at hm hs hc
    exact positions_eq_singleton _ _ hm hs hc (by decide)

/-- C17 at the template of the tests with the default marker: the marker occurs
at position 36 only. -/
theorem C17_marker_occurs_only_overlapping_suffix_witness :
    (NewBulkBuilder maxCap64 testTemplate (([] : List OptSpec).map OptSpec.toOpt) = .ok testBulkBuilder)
      ∧ positions (TrimSpace testTemplate) "(?)".toList = [36]
      ∧ (configuredMarker (([] : List OptSpec).map OptSpec.toOpt) ≠ []
      ∧ configuredMarker (([] : List OptSpec).map OptSpec.toOpt) <:+ TrimSpace testTemplate
      ∧ Count (TrimSpace testTemplate) (configuredMarker (([] : List OptSpec).map OptSpec.toOpt))
          = 1
      ∧ (TrimSpace testTemplate).length
            - (configuredMarker (([] : List OptSpec).map OptSpec.toOpt)).length
          ∈ positions (TrimSpace testTemplate)
              (configuredMarker (([] : List OptSpec).map OptSpec.toOpt))
      ∧ (∀ p ∈ positions (TrimSpace testTemplate)
              (configuredMarker (([] : List OptSpec).map OptSpec.toOpt)),
          p ≤ (TrimSpace testTemplate).length
                - (configuredMarker (([] : List OptSpec).map OptSpec.toOpt)).length
            ∧ (TrimSpace testTemplate).length
                  - (configuredMarker (([] : List OptSpec).map OptSpec.toOpt)).length
                < p + (configuredMarker (([] : List OptSpec).map OptSpec.toOpt)).length)
      ∧ (selfOverlaps (configuredMarker (([] : List OptSpec).map OptSpec.toOpt)) = false →
          positions (TrimSpace testTemplate)
              (configuredMarker (([] : List OptSpec).map OptSpec.toOpt))
            = [(TrimSpace testTemplate).length
                - (configuredMarker (([] : List OptSpec).map OptSpec.toOpt)).length])
      ∧ (lastMarker ([] : List OptSpec) = none ∨ lastMarker ([] : List OptSpec) = some [] →
          positions (TrimSpace testTemplate) "(?)".toList
            = [(TrimSpace testTemplate).length - 3])) :=
  ⟨rfl, by decide,
    C17_marker_occurs_only_overlapping_suffix maxCap64 testTemplate [] testBulkBuilder rfl⟩

end Sqlbuilder
